import Mathlib

/-!
Verification of the identity extraction and resolution engine.

Shallow embedding of the Telegram chat-export identity extractor
(`src/parsers/base_parser.py`, `src/parsers/json_parser.py`,
`src/parsers/html_parser.py`, `src/processors/user_processor.py`,
`src/models/user.py`).

Modelling conventions:
* Python `datetime` values are modelled as `Nat` (only their linear order is
  used by the source); `datetime` objects are always truthy in Python, so
  truthiness of an optional date is `Option.isSome`.
* Python `int` truthiness (`if message_id:`) is "non-zero", string truthiness
  is "non-empty"; these are modelled by `intT` / `strT` below.
* Python's built-in `hash` on strings (used by the source to synthesize
  fallback identity keys) is modelled by `pyHash`, a concrete deterministic
  function; no theorem below depends on its particular values, only on its
  being a function of the string.
* Python dictionaries keyed by user id are modelled as functions
  `Int → Option _` plus (for the `users` dict, whose values are listed) the
  insertion-ordered list of keys.
-/

/-- Model of `models.user.TelegramUser` (src/models/user.py lines 11-29), with the
pydantic field defaults. `datetime` fields are modelled as `Nat`. -/
structure TelegramUser where
  user_id : Int
  username : Option String := none
  first_name : Option String := none
  last_name : Option String := none
  phone_number : Option String := none
  bio : Option String := none
  registration_date : Option Nat := none
  has_channel : Option Bool := none
  is_bot : Bool := false
  is_deleted : Bool := false
  mention : Option String := none
  first_message_date : Option Nat := none
  first_message_id : Option Int := none
  first_reaction_date : Option Nat := none
  first_reaction_emoji : Option String := none
  is_mention_only : Bool := false
  deriving DecidableEq, Repr

/-- Python truthiness of an `Optional[str]`: `None` and `""` are falsy. -/
def strT : Option String → Bool
  | none => false
  | some s => !s.isEmpty

/-- Python truthiness of an `Optional[int]`: `None` and `0` are falsy. -/
def intT : Option Int → Bool
  | none => false
  | some n => n != 0

/-- Pointwise update of a dictionary modelled as a function. -/
def upd {α : Type} (f : Int → Option α) (k : Int) (v : α) : Int → Option α :=
  fun x => if x = k then some v else f x

/-- The mutable state of `BaseParser` (src/parsers/base_parser.py lines
20-25): the `users` dict (as a function plus its insertion-ordered key
list) and the four first-message / first-reaction dictionaries. -/
structure ParserState where
  users : Int → Option TelegramUser
  userKeys : List Int
  firstMsgDate : Int → Option Nat
  firstMsgId : Int → Option Int
  firstReactDate : Int → Option Nat
  firstReactEmoji : Int → Option String

/-- A freshly constructed parser (`BaseParser.__init__`). -/
def initState : ParserState :=
  { users := fun _ => none, userKeys := [],
    firstMsgDate := fun _ => none, firstMsgId := fun _ => none,
    firstReactDate := fun _ => none, firstReactEmoji := fun _ => none }

/-- Lines 103-112 of `BaseParser._extract_user_from_message`: record the
earliest message date (and its id) per user id.  Guard `if message_date and
user.user_id:` — skipped when the date is absent or the id is `0`. -/
def saveFirstMessage (st : ParserState) (uid : Int) (md : Option Nat)
    (mid : Option Int) : ParserState :=
  match md with
  | none => st
  | some d =>
    if uid = 0 then st
    else
      match st.firstMsgDate uid with
      | none =>
        { st with
          firstMsgDate := upd st.firstMsgDate uid d,
          firstMsgId :=
            match mid with
            | some i => if i != 0 then upd st.firstMsgId uid i else st.firstMsgId
            | none => st.firstMsgId }
      | some cur =>
        if d < cur then
          { st with
            firstMsgDate := upd st.firstMsgDate uid d,
            firstMsgId :=
              match mid with
              | some i => if i != 0 then upd st.firstMsgId uid i else st.firstMsgId
              | none => st.firstMsgId }
        else st

/-- Transcription of `JSONParser._save_first_reaction` (src/parsers/json_parser.py lines
276-289): keep the earliest reaction date per user id; the emoji is stored
alongside only when non-empty. -/
def saveFirstReaction (st : ParserState) (uid : Int) (rd : Option Nat)
    (emoji : String) : ParserState :=
  match rd with
  | none => st
  | some d =>
    if uid = 0 then st
    else
      match st.firstReactDate uid with
      | none =>
        { st with
          firstReactDate := upd st.firstReactDate uid d,
          firstReactEmoji :=
            if !emoji.isEmpty then upd st.firstReactEmoji uid emoji
            else st.firstReactEmoji }
      | some cur =>
        if d < cur then
          { st with
            firstReactDate := upd st.firstReactDate uid d,
            firstReactEmoji :=
              if !emoji.isEmpty then upd st.firstReactEmoji uid emoji
              else st.firstReactEmoji }
        else st

/-- Line 164-165 of `_add_user`: clear `is_mention_only` when the incoming
observation is not mention-only. -/
def meFlag (user e : TelegramUser) : TelegramUser :=
  if !user.is_mention_only then { e with is_mention_only := false } else e

/-- Lines 167-168 of `_add_user`: refresh `registration_date` from the
first-message-date dict whenever the dict has an entry. -/
def meReg (st : ParserState) (uid : Int) (e : TelegramUser) : TelegramUser :=
  match st.firstMsgDate uid with
  | some d => { e with registration_date := some d }
  | none => e

/-- Lines 169-178 of `_add_user`: update `first_message_date` (and its id)
only when unset or when the dict's date is strictly earlier; when the dict
has only an id, fill the id if the existing one is falsy. -/
def meMsg (st : ParserState) (uid : Int) (e : TelegramUser) : TelegramUser :=
  match st.firstMsgDate uid with
  | some nd =>
    match e.first_message_date with
    | none =>
      { e with first_message_date := some nd,
               first_message_id :=
                 match st.firstMsgId uid with
                 | some i => some i
                 | none => e.first_message_id }
    | some x =>
      if nd < x then
        { e with first_message_date := some nd,
                 first_message_id :=
                   match st.firstMsgId uid with
                   | some i => some i
                   | none => e.first_message_id }
      else e
  | none =>
    match st.firstMsgId uid with
    | some i =>
      if !(intT e.first_message_id) then { e with first_message_id := some i }
      else e
    | none => e

/-- Lines 179-188 of `_add_user`: same pattern for the first reaction date
and emoji. -/
def meReact (st : ParserState) (uid : Int) (e : TelegramUser) : TelegramUser :=
  match st.firstReactDate uid with
  | some nd =>
    match e.first_reaction_date with
    | none =>
      { e with first_reaction_date := some nd,
               first_reaction_emoji :=
                 match st.firstReactEmoji uid with
                 | some s => some s
                 | none => e.first_reaction_emoji }
    | some x =>
      if nd < x then
        { e with first_reaction_date := some nd,
                 first_reaction_emoji :=
                   match st.firstReactEmoji uid with
                   | some s => some s
                   | none => e.first_reaction_emoji }
      else e
  | none =>
    match st.firstReactEmoji uid with
    | some s =>
      if !(strT e.first_reaction_emoji) then
        { e with first_reaction_emoji := some s }
      else e
    | none => e

/-- Lines 189-191 of `_add_user`: `has_channel` is overwritten whenever the
incoming value `is not None`. -/
def meChan (user e : TelegramUser) : TelegramUser :=
  if user.has_channel.isSome then { e with has_channel := user.has_channel }
  else e

/-- Lines 192-194 of `_add_user`: the username is ALWAYS overwritten when
the incoming observation carries a truthy one (last-wins). -/
def meUname (user e : TelegramUser) : TelegramUser :=
  if strT user.username then { e with username := user.username } else e

/-- Lines 195-197 of `_add_user`: phone is filled only when currently falsy. -/
def mePhone (user e : TelegramUser) : TelegramUser :=
  if !(strT e.phone_number) && strT user.phone_number then
    { e with phone_number := user.phone_number }
  else e

/-- Lines 198-200 of `_add_user`: mention string filled only when falsy. -/
def meMention (user e : TelegramUser) : TelegramUser :=
  if !(strT e.mention) && strT user.mention then
    { e with mention := user.mention }
  else e

/-- Lines 201-203 of `_add_user`: first name filled only when falsy. -/
def meFirst (user e : TelegramUser) : TelegramUser :=
  if !(strT e.first_name) && strT user.first_name then
    { e with first_name := user.first_name }
  else e

/-- Lines 204-205 of `_add_user`: last name filled only when falsy. -/
def meLast (user e : TelegramUser) : TelegramUser :=
  if !(strT e.last_name) && strT user.last_name then
    { e with last_name := user.last_name }
  else e

/-- Lines 206-207 of `_add_user`: bio filled only when falsy. -/
def meBio (user e : TelegramUser) : TelegramUser :=
  if !(strT e.bio) && strT user.bio then { e with bio := user.bio } else e

/-- The full update of an existing roster entry performed by
`BaseParser._add_user` (lines 160-207), in source order. -/
def mergeExisting (st : ParserState) (user e0 : TelegramUser) : TelegramUser :=
  meBio user (meLast user (meFirst user (meMention user (mePhone user
    (meUname user (meChan user (meReact st user.user_id (meMsg st user.user_id
      (meReg st user.user_id (meFlag user e0))))))))))

/-- Lines 208-218 of `_add_user`: a new roster entry is the incoming user
with registration / first-message / first-reaction data copied from the
dictionaries when present. -/
def insertNew (st : ParserState) (user : TelegramUser) : TelegramUser :=
  let u1 :=
    match st.firstMsgDate user.user_id with
    | some d => { user with registration_date := some d,
                            first_message_date := some d }
    | none => user
  let u2 :=
    match st.firstMsgId user.user_id with
    | some i => { u1 with first_message_id := some i }
    | none => u1
  let u3 :=
    match st.firstReactDate user.user_id with
    | some d => { u2 with first_reaction_date := some d }
    | none => u2
  match st.firstReactEmoji user.user_id with
  | some s => { u3 with first_reaction_emoji := some s }
  | none => u3

/-- Transcription of `BaseParser._add_user` (lines 155-219): deleted users are skipped; an
existing key is merged in place, a new key is appended. -/
def addUser (st : ParserState) (user : TelegramUser) : ParserState :=
  if user.is_deleted then st
  else
    match st.users user.user_id with
    | some e0 =>
      { st with users := upd st.users user.user_id (mergeExisting st user e0) }
    | none =>
      { st with users := upd st.users user.user_id (insertNew st user),
                userKeys := st.userKeys ++ [user.user_id] }

/-- One raw identity observation together with its out-of-band correlation
data, as produced by the extractors: the extracted `TelegramUser` (or `none`
when the record was dropped), the message date/id passed to
`_extract_user_from_message`, and the reaction date/emoji passed to
`_save_first_reaction`. -/
structure Obs where
  user : Option TelegramUser := none
  message_date : Option Nat := none
  message_id : Option Int := none
  reaction_date : Option Nat := none
  reaction_emoji : String := ""
  deriving DecidableEq, Repr

/-- Feeding one observation into the resolver: the date bookkeeping of
`_extract_user_from_message` (lines 103-112, skipped for the deletion
tombstone by the early return at line 79), then `_save_first_reaction`,
then `_add_user` — exactly the per-record sequence of `JSONParser.parse`
and `HTMLParser.parse`. -/
def observe (st : ParserState) (o : Obs) : ParserState :=
  match o.user with
  | none => st
  | some u =>
    if u.is_deleted then st
    else
      let st1 := saveFirstMessage st u.user_id o.message_date o.message_id
      let st2 := saveFirstReaction st1 u.user_id o.reaction_date o.reaction_emoji
      addUser st2 u

/-- A whole file's observation stream fed into one fresh resolver. -/
def runObs (l : List Obs) : ParserState := l.foldl observe initState

/-- Lines 225-229 of `get_unique_users`: fill a still-unset registration
date and first-message date from the first-message-date dict. -/
def puMsg (st : ParserState) (k : Int) (u : TelegramUser) : TelegramUser :=
  match st.firstMsgDate k with
  | some d =>
    let a :=
      if u.registration_date = none then { u with registration_date := some d }
      else u
    if a.first_message_date = none then { a with first_message_date := some d }
    else a
  | none => u

/-- Lines 230-231 of `get_unique_users`: fill a falsy first-message id. -/
def puMsgId (st : ParserState) (k : Int) (u : TelegramUser) : TelegramUser :=
  match st.firstMsgId k with
  | some i =>
    if !(intT u.first_message_id) then { u with first_message_id := some i }
    else u
  | none => u

/-- Lines 232-233 of `get_unique_users`: fill an unset first-reaction date. -/
def puReact (st : ParserState) (k : Int) (u : TelegramUser) : TelegramUser :=
  match st.firstReactDate k with
  | some d =>
    if u.first_reaction_date = none then { u with first_reaction_date := some d }
    else u
  | none => u

/-- Lines 234-235 of `get_unique_users`: fill a falsy first-reaction emoji. -/
def puEmoji (st : ParserState) (k : Int) (u : TelegramUser) : TelegramUser :=
  match st.firstReactEmoji k with
  | some s =>
    if !(strT u.first_reaction_emoji) then { u with first_reaction_emoji := some s }
    else u
  | none => u

/-- The final patch applied per user by `BaseParser.get_unique_users`
(lines 224-235): fill still-unset registration / first-message /
first-reaction fields from the dictionaries. -/
def patchUser (st : ParserState) (k : Int) (u : TelegramUser) : TelegramUser :=
  puEmoji st k (puReact st k (puMsgId st k (puMsg st k u)))

/-- Transcription of `BaseParser.get_unique_users` (lines 221-236): the `users` dict in
insertion order, with the final patch applied to each entry. -/
def getUniqueUsers (st : ParserState) : List TelegramUser :=
  st.userKeys.filterMap (fun k => (st.users k).map (patchUser st k))

/-- The roster one file's observation stream resolves to. -/
def parseFileUsers (l : List Obs) : List TelegramUser :=
  getUniqueUsers (runObs l)

/-- The resolved identity a stream assigns to one key (with the final
`get_unique_users` patch applied), or `none` when the key is absent. -/
def resolvedAt (l : List Obs) (k : Int) : Option TelegramUser :=
  ((runObs l).users k).map (patchUser (runObs l) k)

example : parseFileUsers [] = [] := rfl
example : (runObs []).users 3 = none := rfl

/-! Section: String helpers translated from the Python primitives the source uses -/

/-- Stand-in for Python's built-in `hash` on strings, which the source uses
to synthesize fallback identity keys (`hash(username)`, `hash(full_name)`,
`hash(from_id_field)`).  Within one interpreter run it is an arbitrary but
fixed function of the string; no theorem below depends on its values. -/
def pyHash (s : String) : Int :=
  s.data.foldl (fun a c => a * 131 + Int.ofNat c.toNat) 7

/-- Test that `p` is a leading segment of `l` (Python `str.startswith`, list level). -/
def listIsPre : List Char → List Char → Bool
  | [], _ => true
  | _ :: _, [] => false
  | a :: as, b :: bs => a == b && listIsPre as bs

/-- Python `s.startswith(p)`. -/
def pyStartsWith (s p : String) : Bool := listIsPre p.data s.data

/-- Test that `pat` occurs somewhere inside `hay` (helper for Python's `in`). -/
def listContainsSeq (hay pat : List Char) : Bool :=
  match hay with
  | [] => pat.isEmpty
  | _ :: rest => listIsPre pat hay || listContainsSeq rest pat

/-- Python `pat in s` on strings. -/
def pyIn (pat s : String) : Bool := listContainsSeq s.data pat.data

/-- ASCII lower-casing of one character (model of `str.lower`; the source
only ever compares against ASCII keywords, and the one Cyrillic keyword is
already lower case). -/
def lowerChar (c : Char) : Char :=
  if 65 ≤ c.toNat && c.toNat ≤ 90 then Char.ofNat (c.toNat + 32) else c

/-- Model of Python `str.lower`. -/
def pyLower (s : String) : String := String.mk (s.data.map lowerChar)

/-- Whitespace as Python's `str.split` / `int()` see it. -/
def pyIsSpace (c : Char) : Bool :=
  c == ' ' || c == '\t' || c == '\n' || c == '\r' ||
  c == Char.ofNat 11 || c == Char.ofNat 12

/-- ASCII decimal digit. -/
def pyIsDigit (c : Char) : Bool := 48 ≤ c.toNat && c.toNat ≤ 57

/-- Numeric value of a digit string. -/
def digitsVal (l : List Char) : Nat :=
  l.foldl (fun a c => 10 * a + (c.toNat - 48)) 0

/-- Model of Python `int(s)` on strings: surrounding whitespace is
stripped, an optional single sign is allowed, and the remainder must be a
non-empty digit string — otherwise a `ValueError` is raised, modelled as
`none`.  (Underscore digit grouping is not modelled; no theorem relies on
inputs containing underscores.) -/
def pyInt? (s : String) : Option Int :=
  let l := ((s.data.dropWhile pyIsSpace).reverse.dropWhile pyIsSpace).reverse
  match l with
  | [] => none
  | c :: rest =>
    if c = '+' then
      if !rest.isEmpty && rest.all pyIsDigit then some (Int.ofNat (digitsVal rest))
      else none
    else if c = '-' then
      if !rest.isEmpty && rest.all pyIsDigit then some (-(Int.ofNat (digitsVal rest)))
      else none
    else
      if !l.isEmpty && l.all pyIsDigit then some (Int.ofNat (digitsVal l))
      else none

/-- Python `s.replace("user", "")` (line 48 of base_parser.py): delete all
non-overlapping occurrences of `"user"`, scanning left to right. -/
def dropUser : List Char → List Char
  | 'u' :: 's' :: 'e' :: 'r' :: rest => dropUser rest
  | c :: rest => c :: dropUser rest
  | [] => []

/-- Python `full_name.split(maxsplit=1)` (line 61 of base_parser.py):
leading whitespace is stripped; the first whitespace-delimited token is
split off; the remainder (with the delimiter run removed, trailing
whitespace kept) is the optional second element. -/
def pySplit1 (s : String) : List String :=
  let l1 := s.data.dropWhile pyIsSpace
  match l1 with
  | [] => []
  | _ :: _ =>
    let tok := l1.takeWhile (fun c => !pyIsSpace c)
    let rest := (l1.dropWhile (fun c => !pyIsSpace c)).dropWhile pyIsSpace
    if rest.isEmpty then [String.mk tok] else [String.mk tok, String.mk rest]

/-! Section: Extraction of users from message records -/

/-- The `id` field of an embedded author object: an integer id, the literal
deletion tombstone string `'deleted_account'`, or absent. -/
inductive IdField where
  | intId (n : Int)
  | deletedAccount
  deriving DecidableEq, Repr

/-- An embedded author object (the `from` field as a dict), restricted to
the keys `_extract_user_from_message` reads. -/
structure UserData where
  id : Option IdField := none
  username : Option String := none
  first_name : Option String := none
  last_name : Option String := none
  bio : Option String := none
  is_bot : Bool := false
  deriving DecidableEq, Repr

/-- The `from` field of a message: a bare display-name string, an embedded
object, or anything else (Python then substitutes the empty dict `{}`). -/
inductive FromField where
  | str (s : String)
  | obj (ud : UserData)
  | other
  deriving DecidableEq, Repr

/-- The `from_id` field: a string, or anything else (absent / non-string). -/
inductive FromIdVal where
  | str (s : String)
  | absent
  deriving DecidableEq, Repr

/-- Transcription of `BaseParser._detect_channel_in_profile` (lines 119-135).  Note the
keyword scan runs on the lower-cased bio but the final `t.me/` /
`telegram.me/` check runs on the ORIGINAL bio; the function only ever
returns `none` or `some true`. -/
def detectChannel (bio : String) (ud : UserData) : Option Bool :=
  if bio.isEmpty then none
  else
    let bl := pyLower bio
    if ["канал", "channel", "t.me/", "telegram.me/", "@"].any
        (fun kw => pyIn kw bl) then
      if pyIn "t.me/" bio || pyIn "telegram.me/" bio then some true else none
    else none

/-- The object branch of `_extract_user_from_message` (lines 73-101): the
`'deleted_account'` tombstone short-circuits to a fixed deleted record;
otherwise the id defaults to `0`, the bio defaults to `''`, and the channel
flag is derived from the bio. -/
def extractUserFromObj (ud : UserData) : Option TelegramUser :=
  if ud.id = some IdField.deletedAccount then
    some { user_id := 0, is_deleted := true, username := none,
           first_name := some "Deleted Account", last_name := none }
  else
    let uid : Int := match ud.id with | some (.intId n) => n | _ => 0
    let bio := ud.bio.getD ""
    some { user_id := uid, username := ud.username,
           first_name := ud.first_name, last_name := ud.last_name,
           bio := some bio, is_bot := ud.is_bot,
           has_channel := detectChannel bio ud }

/-- A string author's user record (the tail of the string branch, lines
60-71): name split on first whitespace, no username, not a bot. -/
def strAuthorUser (full_name : String) (uid : Int) : TelegramUser :=
  { user_id := uid, username := none,
    first_name := some ((pySplit1 full_name).headD full_name),
    last_name := match pySplit1 full_name with
                 | _ :: q :: _ => some q
                 | _ => none,
    is_bot := false }

/-- The string branch of `_extract_user_from_message` (lines 40-71): the
secondary `from_id` is decoded by prefix — `user...` strips every `"user"`
occurrence and parses the rest as an int (a `ValueError` aborts the record:
`none`), `channel...` drops the record, anything else hashes the identifier
string; a non-string `from_id` hashes the display name. -/
def extractUserFromStr (full_name : String) (fid : FromIdVal) : Option TelegramUser :=
  let uidOpt : Option Int :=
    match fid with
    | .str s =>
      if pyStartsWith s "user" then pyInt? (String.mk (dropUser s.data))
      else if pyStartsWith s "channel" then none
      else some (pyHash s)
    | .absent => some (pyHash full_name)
  match uidOpt with
  | none => none
  | some uid => some (strAuthorUser full_name uid)

/-- Transcription of `BaseParser._extract_user_from_message` (lines 32-117) restricted to
its pure extraction result (the date bookkeeping of lines 103-112 lives in
`observe`): string authors, embedded objects, and the `{}` substitute for a
non-dict `from` field. -/
def extractUserFromMessage (ff : FromField) (fid : FromIdVal) : Option TelegramUser :=
  match ff with
  | .str s => extractUserFromStr s fid
  | .obj ud => extractUserFromObj ud
  | .other => extractUserFromObj {}

/-! Section: The mention scanner -/

/-- A character the handle pattern `@([a-zA-Z0-9_]{5,32})` accepts. -/
def isWordChar (c : Char) : Bool :=
  (97 ≤ c.toNat && c.toNat ≤ 122) || (65 ≤ c.toNat && c.toNat ≤ 90) ||
  (48 ≤ c.toNat && c.toNat ≤ 57) || c == '_'

/-- Left-to-right scan for `@([a-zA-Z0-9_]{5,32})` as `re.findall` performs
it: at each `@`, greedily take up to 32 word characters; a match needs at
least 5 and scanning resumes after the matched run.  Fuel-driven so the
function reduces by iota; `scanMentions` supplies fuel = length. -/
def scanMentionsAux : Nat → List Char → List String
  | 0, _ => []
  | _ + 1, [] => []
  | fuel + 1, c :: rest =>
    if c = '@' then
      let t := (rest.takeWhile isWordChar).take 32
      if 5 ≤ t.length then String.mk t :: scanMentionsAux fuel (rest.drop t.length)
      else scanMentionsAux fuel rest
    else scanMentionsAux fuel rest

/-- All raw (possibly repeated) handle matches in a character list. -/
def scanMentions (l : List Char) : List String := scanMentionsAux l.length l

/-- The de-duplication loop of `_extract_mentioned_users` (lines 149-151):
append each match not seen before, preserving first-occurrence order. -/
def dedupKeepFirst (acc : List String) : List String → List String
  | [] => acc
  | u :: l => dedupKeepFirst (if u ∈ acc then acc else acc ++ [u]) l

/-- Transcription of `BaseParser._extract_mentioned_users` (lines 137-153) and its verbatim
copy `JSONParser._extract_mentioned_usernames_from_text` (lines 169-185):
empty text yields `[]`; otherwise the de-duplicated, order-preserving list
of handle matches. -/
def extractMentionedUsers (text : String) : List String :=
  if text.isEmpty then []
  else dedupKeepFirst [] (scanMentions text.data)

/-- The throwaway mention user of `JSONParser.parse` lines 60-65 and
`_extract_mentioned_users_from_message` lines 151-156: hash-keyed, username
set, and — unlike the HTML path — `is_mention_only` left at its default
`False`. -/
def mkTextMentionUser (username : String) : TelegramUser :=
  { user_id := pyHash username, username := some username,
    first_name := none, last_name := none }

/-- The mention user of `HTMLParser.parse` lines 50-56: identical except
that `is_mention_only=True` is passed explicitly. -/
def mkHtmlMentionUser (username : String) : TelegramUser :=
  { user_id := pyHash username, username := some username,
    first_name := none, last_name := none, is_mention_only := true }

example : extractMentionedUsers "hi @alice_bob and @alice_bob @bob" = ["alice_bob"] := by decide
example : extractMentionedUsers "" = [] := rfl

/-! Section: The JSON parser -/

/-- An entity annotation (`entities` / `text_entities`), restricted to the
kinds `_extract_mentioned_users_from_message` (json_parser.py lines
132-167) reacts to.  A `text_mention` with an empty or missing `user`
object (falsy in Python) is modelled by `none`. -/
inductive JEntity where
  | mention (offset length : Nat)
  | text_mention (ud : Option UserData)
  | otherKind
  deriving DecidableEq, Repr

/-- One reactor inside a reaction's `recent` list (json_parser.py lines
74-81): the author-shaped fields plus the reaction date already run
through `_extract_reaction_date`. -/
structure JReactionUser where
  from_field : FromField := .other
  from_id : FromIdVal := .absent
  date : Option Nat := none
  deriving DecidableEq, Repr

/-- One entry of a message's `reactions` list. -/
structure JReaction where
  emoji : String := ""
  recent : List JReactionUser := []
  deriving DecidableEq, Repr

/-- One message record of a structured (JSON) export, restricted to what
`JSONParser.parse` reads.  `date` models the result of
`_extract_message_date`, `phone` / `mention` the results of
`_extract_phone_from_message` / `_extract_mention_from_message`, and
`text` the flattened result of `_extract_text_from_message`; the internal
walking of those helpers over nested JSON is outside the claims and is
abstracted as the already-extracted value. -/
structure JMessage where
  from_present : Bool := false
  from_field : FromField := .other
  from_id : FromIdVal := .absent
  date : Option Nat := none
  msg_id : Option Int := none
  phone : Option String := none
  mention : Option String := none
  text : String := ""
  entities : List JEntity := []
  reactions : List JReaction := []
  deriving DecidableEq, Repr

/-- Helper: an observation carrying only a user, no correlation data. -/
def mkObsPlain (u : TelegramUser) : Obs := { user := some u }

/-- The observation stream one message of `JSONParser.parse` (lines 27-81)
feeds into the resolver, in source order: the author (with phone and
mention attached when found and not already set, lines 40-45), the entity
mentions (lines 47-52), the free-text mentions (lines 54-66), then the
reactors with their reaction correlation (lines 68-81). -/
def jsonMessageObs (m : JMessage) : List Obs :=
  let authorObs : List Obs :=
    if m.from_present then
      match extractUserFromMessage m.from_field m.from_id with
      | some u =>
        let u1 := if strT m.phone && !(strT u.phone_number) then
                    { u with phone_number := m.phone } else u
        let u2 := if strT m.mention && !(strT u1.mention) then
                    { u1 with mention := m.mention } else u1
        [{ user := some u2, message_date := m.date, message_id := m.msg_id }]
      | none => []
    else []
  let entityObs : List Obs :=
    m.entities.flatMap (fun e =>
      match e with
      | .mention off len =>
        match (m.text.data.drop off).take len with
        | '@' :: rest => [mkObsPlain (mkTextMentionUser (String.mk rest))]
        | _ => []
      | .text_mention ud =>
        match ud with
        | some ud' =>
          match extractUserFromObj ud' with
          | some u => [mkObsPlain u]
          | none => []
        | none => []
      | .otherKind => [])
  let textObs : List Obs :=
    (extractMentionedUsers m.text).map (fun un => mkObsPlain (mkTextMentionUser un))
  let reactObs : List Obs :=
    m.reactions.flatMap (fun r =>
      r.recent.filterMap (fun ru =>
        match extractUserFromMessage ru.from_field ru.from_id with
        | some u => some { user := some u, reaction_date := ru.date,
                           reaction_emoji := r.emoji }
        | none => none))
  authorObs ++ entityObs ++ textObs ++ reactObs

/-- A JSON export file as `JSONParser.parse` sees it: either the container
fails to parse at all (`json.JSONDecodeError`), or it yields a message
list. -/
inductive JsonFile where
  | invalid
  | valid (messages : List JMessage)
  deriving DecidableEq, Repr

/-- Transcription of `JSONParser.parse` (lines 19-90): an unparseable container is caught
(lines 85-87) and yields the empty list — no error reaches the caller;
otherwise every message's observations are resolved and the unique users
returned. -/
def JSONParse (f : JsonFile) : List TelegramUser :=
  match f with
  | .invalid => []
  | .valid msgs => parseFileUsers (msgs.flatMap jsonMessageObs)

/-! Section: The multi-file aggregator's merge -/

/-- The state of `UserProcessor` (src/processors/user_processor.py lines
21-23): the running global roster. -/
structure ProcState where
  users : Int → Option TelegramUser
  keys : List Int

/-- A freshly constructed `UserProcessor`. -/
def procInit : ProcState := { users := fun _ => none, keys := [] }

/-- The in-place update of an existing aggregator entry performed by
`UserProcessor._merge_users` (lines 131-140): username last-wins, first and
last name first-non-empty — and NOTHING else is merged. -/
def codeMergePair (e user : TelegramUser) : TelegramUser :=
  let e1 := if strT user.username then { e with username := user.username } else e
  let e2 := if strT user.first_name && !(strT e1.first_name) then
              { e1 with first_name := user.first_name } else e1
  if strT user.last_name && !(strT e2.last_name) then
    { e2 with last_name := user.last_name } else e2

/-- One step of `UserProcessor._merge_users` (lines 124-140): deleted users
are skipped, a new key is inserted, an existing key is updated via
`codeMergePair`. -/
def procMergeUser (st : ProcState) (user : TelegramUser) : ProcState :=
  if user.is_deleted then st
  else
    match st.users user.user_id with
    | none =>
      { users := fun k => if k = user.user_id then some user else st.users k,
        keys := st.keys ++ [user.user_id] }
    | some e =>
      { st with users := fun k => if k = user.user_id then
                                    some (codeMergePair e user)
                                  else st.users k }

/-- Fold of `UserProcessor._merge_users` over one file's resolved user list. -/
def procMergeUsers (st : ProcState) (users : List TelegramUser) : ProcState :=
  users.foldl procMergeUser st

/-- Modelled from the spec: the merge policy of §4.4 applied at the
identity level, as §4.5 prescribes for the aggregator ("treating each
file's resolved Identity as if it were itself a sequence of observations
replayed into the global resolver, preserving the same field-priority and
monotonic-timestamp rules"): handle replaced unconditionally when supplied;
name parts, phone, profile text, mention string first-non-empty;
mention-only cleared, never re-set; bot flag only ever asserted; channel
flag overwritten when the new value is known; earliest timestamps take the
monotonic minimum.  This is the spec-side comparison point for the
refinement claim; `codeMergePair` is what the code does. -/
def specIdentityMerge (e u : TelegramUser) : TelegramUser :=
  { e with
    username := if strT u.username then u.username else e.username,
    first_name := if !(strT e.first_name) && strT u.first_name then
                    u.first_name else e.first_name,
    last_name := if !(strT e.last_name) && strT u.last_name then
                   u.last_name else e.last_name,
    phone_number := if !(strT e.phone_number) && strT u.phone_number then
                      u.phone_number else e.phone_number,
    bio := if !(strT e.bio) && strT u.bio then u.bio else e.bio,
    mention := if !(strT e.mention) && strT u.mention then
                 u.mention else e.mention,
    has_channel := if u.has_channel.isSome then u.has_channel else e.has_channel,
    is_bot := e.is_bot || u.is_bot,
    is_mention_only := e.is_mention_only && u.is_mention_only,
    first_message_date :=
      match e.first_message_date, u.first_message_date with
      | some a, some b => some (min a b)
      | some a, none => some a
      | none, b => b,
    first_reaction_date :=
      match e.first_reaction_date, u.first_reaction_date with
      | some a, some b => some (min a b)
      | some a, none => some a
      | none, b => b }

/-! Section: Field bookkeeping for the `_add_user` merge chain -/

@[simp] lemma meFlag_flag (user e : TelegramUser) :
    (meFlag user e).is_mention_only = (e.is_mention_only && user.is_mention_only) := by
  unfold meFlag; cases user.is_mention_only <;> simp

@[simp] lemma meFlag_reg (user e : TelegramUser) :
    (meFlag user e).registration_date = e.registration_date := by
  unfold meFlag; split <;> rfl

@[simp] lemma meFlag_fmd (user e : TelegramUser) :
    (meFlag user e).first_message_date = e.first_message_date := by
  unfold meFlag; split <;> rfl

@[simp] lemma meFlag_frd (user e : TelegramUser) :
    (meFlag user e).first_reaction_date = e.first_reaction_date := by
  unfold meFlag; split <;> rfl

@[simp] lemma meFlag_chan (user e : TelegramUser) :
    (meFlag user e).has_channel = e.has_channel := by
  unfold meFlag; split <;> rfl

@[simp] lemma meReg_reg (st : ParserState) (uid : Int) (e : TelegramUser) :
    (meReg st uid e).registration_date =
      match st.firstMsgDate uid with
      | some d => some d
      | none => e.registration_date := by
  unfold meReg; split <;> rfl

@[simp] lemma meReg_flag (st : ParserState) (uid : Int) (e : TelegramUser) :
    (meReg st uid e).is_mention_only = e.is_mention_only := by
  unfold meReg; split <;> rfl

@[simp] lemma meReg_fmd (st : ParserState) (uid : Int) (e : TelegramUser) :
    (meReg st uid e).first_message_date = e.first_message_date := by
  unfold meReg; split <;> rfl

@[simp] lemma meReg_frd (st : ParserState) (uid : Int) (e : TelegramUser) :
    (meReg st uid e).first_reaction_date = e.first_reaction_date := by
  unfold meReg; split <;> rfl

@[simp] lemma meReg_chan (st : ParserState) (uid : Int) (e : TelegramUser) :
    (meReg st uid e).has_channel = e.has_channel := by
  unfold meReg; split <;> rfl

@[simp] lemma meMsg_fmd (st : ParserState) (uid : Int) (e : TelegramUser) :
    (meMsg st uid e).first_message_date =
      match st.firstMsgDate uid, e.first_message_date with
      | some nd, none => some nd
      | some nd, some x => some (if nd < x then nd else x)
      | none, f => f := by
  unfold meMsg; repeat' split
  all_goals simp_all
  all_goals omega

@[simp] lemma meMsg_flag (st : ParserState) (uid : Int) (e : TelegramUser) :
    (meMsg st uid e).is_mention_only = e.is_mention_only := by
  unfold meMsg; repeat' split
  all_goals rfl

@[simp] lemma meMsg_reg (st : ParserState) (uid : Int) (e : TelegramUser) :
    (meMsg st uid e).registration_date = e.registration_date := by
  unfold meMsg; repeat' split
  all_goals rfl

@[simp] lemma meMsg_frd (st : ParserState) (uid : Int) (e : TelegramUser) :
    (meMsg st uid e).first_reaction_date = e.first_reaction_date := by
  unfold meMsg; repeat' split
  all_goals rfl

@[simp] lemma meMsg_chan (st : ParserState) (uid : Int) (e : TelegramUser) :
    (meMsg st uid e).has_channel = e.has_channel := by
  unfold meMsg; repeat' split
  all_goals rfl

@[simp] lemma meReact_frd (st : ParserState) (uid : Int) (e : TelegramUser) :
    (meReact st uid e).first_reaction_date =
      match st.firstReactDate uid, e.first_reaction_date with
      | some nd, none => some nd
      | some nd, some x => some (if nd < x then nd else x)
      | none, f => f := by
  unfold meReact; repeat' split
  all_goals simp_all
  all_goals omega

@[simp] lemma meReact_flag (st : ParserState) (uid : Int) (e : TelegramUser) :
    (meReact st uid e).is_mention_only = e.is_mention_only := by
  unfold meReact; repeat' split
  all_goals rfl

@[simp] lemma meReact_reg (st : ParserState) (uid : Int) (e : TelegramUser) :
    (meReact st uid e).registration_date = e.registration_date := by
  unfold meReact; repeat' split
  all_goals rfl

@[simp] lemma meReact_fmd (st : ParserState) (uid : Int) (e : TelegramUser) :
    (meReact st uid e).first_message_date = e.first_message_date := by
  unfold meReact; repeat' split
  all_goals rfl

@[simp] lemma meReact_chan (st : ParserState) (uid : Int) (e : TelegramUser) :
    (meReact st uid e).has_channel = e.has_channel := by
  unfold meReact; repeat' split
  all_goals rfl

@[simp] lemma meChan_chan (user e : TelegramUser) :
    (meChan user e).has_channel =
      if user.has_channel.isSome then user.has_channel else e.has_channel := by
  unfold meChan; split <;> simp_all

@[simp] lemma meChan_flag (user e : TelegramUser) :
    (meChan user e).is_mention_only = e.is_mention_only := by
  unfold meChan; split <;> rfl

@[simp] lemma meChan_reg (user e : TelegramUser) :
    (meChan user e).registration_date = e.registration_date := by
  unfold meChan; split <;> rfl

@[simp] lemma meChan_fmd (user e : TelegramUser) :
    (meChan user e).first_message_date = e.first_message_date := by
  unfold meChan; split <;> rfl

@[simp] lemma meChan_frd (user e : TelegramUser) :
    (meChan user e).first_reaction_date = e.first_reaction_date := by
  unfold meChan; split <;> rfl

@[simp] lemma meUname_flag (user e : TelegramUser) :
    (meUname user e).is_mention_only = e.is_mention_only := by
  unfold meUname; split <;> rfl

@[simp] lemma meUname_reg (user e : TelegramUser) :
    (meUname user e).registration_date = e.registration_date := by
  unfold meUname; split <;> rfl

@[simp] lemma meUname_fmd (user e : TelegramUser) :
    (meUname user e).first_message_date = e.first_message_date := by
  unfold meUname; split <;> rfl

@[simp] lemma meUname_frd (user e : TelegramUser) :
    (meUname user e).first_reaction_date = e.first_reaction_date := by
  unfold meUname; split <;> rfl

@[simp] lemma meUname_chan (user e : TelegramUser) :
    (meUname user e).has_channel = e.has_channel := by
  unfold meUname; split <;> rfl

@[simp] lemma mePhone_flag (user e : TelegramUser) :
    (mePhone user e).is_mention_only = e.is_mention_only := by
  unfold mePhone; split <;> rfl

@[simp] lemma mePhone_reg (user e : TelegramUser) :
    (mePhone user e).registration_date = e.registration_date := by
  unfold mePhone; split <;> rfl

@[simp] lemma mePhone_fmd (user e : TelegramUser) :
    (mePhone user e).first_message_date = e.first_message_date := by
  unfold mePhone; split <;> rfl

@[simp] lemma mePhone_frd (user e : TelegramUser) :
    (mePhone user e).first_reaction_date = e.first_reaction_date := by
  unfold mePhone; split <;> rfl

@[simp] lemma mePhone_chan (user e : TelegramUser) :
    (mePhone user e).has_channel = e.has_channel := by
  unfold mePhone; split <;> rfl

@[simp] lemma meMention_flag (user e : TelegramUser) :
    (meMention user e).is_mention_only = e.is_mention_only := by
  unfold meMention; split <;> rfl

@[simp] lemma meMention_reg (user e : TelegramUser) :
    (meMention user e).registration_date = e.registration_date := by
  unfold meMention; split <;> rfl

@[simp] lemma meMention_fmd (user e : TelegramUser) :
    (meMention user e).first_message_date = e.first_message_date := by
  unfold meMention; split <;> rfl

@[simp] lemma meMention_frd (user e : TelegramUser) :
    (meMention user e).first_reaction_date = e.first_reaction_date := by
  unfold meMention; split <;> rfl

@[simp] lemma meMention_chan (user e : TelegramUser) :
    (meMention user e).has_channel = e.has_channel := by
  unfold meMention; split <;> rfl

@[simp] lemma meFirst_flag (user e : TelegramUser) :
    (meFirst user e).is_mention_only = e.is_mention_only := by
  unfold meFirst; split <;> rfl

@[simp] lemma meFirst_reg (user e : TelegramUser) :
    (meFirst user e).registration_date = e.registration_date := by
  unfold meFirst; split <;> rfl

@[simp] lemma meFirst_fmd (user e : TelegramUser) :
    (meFirst user e).first_message_date = e.first_message_date := by
  unfold meFirst; split <;> rfl

@[simp] lemma meFirst_frd (user e : TelegramUser) :
    (meFirst user e).first_reaction_date = e.first_reaction_date := by
  unfold meFirst; split <;> rfl

@[simp] lemma meFirst_chan (user e : TelegramUser) :
    (meFirst user e).has_channel = e.has_channel := by
  unfold meFirst; split <;> rfl

@[simp] lemma meLast_flag (user e : TelegramUser) :
    (meLast user e).is_mention_only = e.is_mention_only := by
  unfold meLast; split <;> rfl

@[simp] lemma meLast_reg (user e : TelegramUser) :
    (meLast user e).registration_date = e.registration_date := by
  unfold meLast; split <;> rfl

@[simp] lemma meLast_fmd (user e : TelegramUser) :
    (meLast user e).first_message_date = e.first_message_date := by
  unfold meLast; split <;> rfl

@[simp] lemma meLast_frd (user e : TelegramUser) :
    (meLast user e).first_reaction_date = e.first_reaction_date := by
  unfold meLast; split <;> rfl

@[simp] lemma meLast_chan (user e : TelegramUser) :
    (meLast user e).has_channel = e.has_channel := by
  unfold meLast; split <;> rfl

@[simp] lemma meBio_flag (user e : TelegramUser) :
    (meBio user e).is_mention_only = e.is_mention_only := by
  unfold meBio; split <;> rfl

@[simp] lemma meBio_reg (user e : TelegramUser) :
    (meBio user e).registration_date = e.registration_date := by
  unfold meBio; split <;> rfl

@[simp] lemma meBio_fmd (user e : TelegramUser) :
    (meBio user e).first_message_date = e.first_message_date := by
  unfold meBio; split <;> rfl

@[simp] lemma meBio_frd (user e : TelegramUser) :
    (meBio user e).first_reaction_date = e.first_reaction_date := by
  unfold meBio; split <;> rfl

@[simp] lemma meBio_chan (user e : TelegramUser) :
    (meBio user e).has_channel = e.has_channel := by
  unfold meBio; split <;> rfl

lemma mergeExisting_flag (st : ParserState) (user e0 : TelegramUser) :
    (mergeExisting st user e0).is_mention_only =
      (e0.is_mention_only && user.is_mention_only) := by
  unfold mergeExisting; simp

lemma mergeExisting_reg (st : ParserState) (user e0 : TelegramUser) :
    (mergeExisting st user e0).registration_date =
      match st.firstMsgDate user.user_id with
      | some d => some d
      | none => e0.registration_date := by
  unfold mergeExisting; simp

lemma mergeExisting_fmd (st : ParserState) (user e0 : TelegramUser) :
    (mergeExisting st user e0).first_message_date =
      match st.firstMsgDate user.user_id, e0.first_message_date with
      | some nd, none => some nd
      | some nd, some x => some (if nd < x then nd else x)
      | none, f => f := by
  unfold mergeExisting; simp

lemma mergeExisting_frd (st : ParserState) (user e0 : TelegramUser) :
    (mergeExisting st user e0).first_reaction_date =
      match st.firstReactDate user.user_id, e0.first_reaction_date with
      | some nd, none => some nd
      | some nd, some x => some (if nd < x then nd else x)
      | none, f => f := by
  unfold mergeExisting; simp

lemma mergeExisting_chan (st : ParserState) (user e0 : TelegramUser) :
    (mergeExisting st user e0).has_channel =
      if user.has_channel.isSome then user.has_channel else e0.has_channel := by
  unfold mergeExisting; simp

lemma insertNew_flag (st : ParserState) (user : TelegramUser) :
    (insertNew st user).is_mention_only = user.is_mention_only := by
  unfold insertNew; repeat' split
  all_goals rfl

lemma insertNew_chan (st : ParserState) (user : TelegramUser) :
    (insertNew st user).has_channel = user.has_channel := by
  unfold insertNew; repeat' split
  all_goals rfl

lemma insertNew_reg (st : ParserState) (user : TelegramUser) :
    (insertNew st user).registration_date =
      match st.firstMsgDate user.user_id with
      | some d => some d
      | none => user.registration_date := by
  unfold insertNew; repeat' split
  all_goals simp_all

lemma insertNew_fmd (st : ParserState) (user : TelegramUser) :
    (insertNew st user).first_message_date =
      match st.firstMsgDate user.user_id with
      | some d => some d
      | none => user.first_message_date := by
  unfold insertNew; repeat' split
  all_goals simp_all

lemma insertNew_frd (st : ParserState) (user : TelegramUser) :
    (insertNew st user).first_reaction_date =
      match st.firstReactDate user.user_id with
      | some d => some d
      | none => user.first_reaction_date := by
  unfold insertNew; repeat' split
  all_goals simp_all

@[simp] lemma puMsg_flag (st : ParserState) (k : Int) (u : TelegramUser) :
    (puMsg st k u).is_mention_only = u.is_mention_only := by
  simp only [puMsg]; repeat' split
  all_goals rfl

@[simp] lemma puMsg_chan (st : ParserState) (k : Int) (u : TelegramUser) :
    (puMsg st k u).has_channel = u.has_channel := by
  simp only [puMsg]; repeat' split
  all_goals rfl

@[simp] lemma puMsg_frd (st : ParserState) (k : Int) (u : TelegramUser) :
    (puMsg st k u).first_reaction_date = u.first_reaction_date := by
  simp only [puMsg]; repeat' split
  all_goals rfl

@[simp] lemma puMsgId_flag (st : ParserState) (k : Int) (u : TelegramUser) :
    (puMsgId st k u).is_mention_only = u.is_mention_only := by
  simp only [puMsgId]; repeat' split
  all_goals rfl

@[simp] lemma puMsgId_chan (st : ParserState) (k : Int) (u : TelegramUser) :
    (puMsgId st k u).has_channel = u.has_channel := by
  simp only [puMsgId]; repeat' split
  all_goals rfl

@[simp] lemma puMsgId_fmd (st : ParserState) (k : Int) (u : TelegramUser) :
    (puMsgId st k u).first_message_date = u.first_message_date := by
  simp only [puMsgId]; repeat' split
  all_goals rfl

@[simp] lemma puMsgId_reg (st : ParserState) (k : Int) (u : TelegramUser) :
    (puMsgId st k u).registration_date = u.registration_date := by
  simp only [puMsgId]; repeat' split
  all_goals rfl

@[simp] lemma puMsgId_frd (st : ParserState) (k : Int) (u : TelegramUser) :
    (puMsgId st k u).first_reaction_date = u.first_reaction_date := by
  simp only [puMsgId]; repeat' split
  all_goals rfl

@[simp] lemma puReact_flag (st : ParserState) (k : Int) (u : TelegramUser) :
    (puReact st k u).is_mention_only = u.is_mention_only := by
  simp only [puReact]; repeat' split
  all_goals rfl

@[simp] lemma puReact_chan (st : ParserState) (k : Int) (u : TelegramUser) :
    (puReact st k u).has_channel = u.has_channel := by
  simp only [puReact]; repeat' split
  all_goals rfl

@[simp] lemma puReact_fmd (st : ParserState) (k : Int) (u : TelegramUser) :
    (puReact st k u).first_message_date = u.first_message_date := by
  simp only [puReact]; repeat' split
  all_goals rfl

@[simp] lemma puReact_reg (st : ParserState) (k : Int) (u : TelegramUser) :
    (puReact st k u).registration_date = u.registration_date := by
  simp only [puReact]; repeat' split
  all_goals rfl

@[simp] lemma puEmoji_flag (st : ParserState) (k : Int) (u : TelegramUser) :
    (puEmoji st k u).is_mention_only = u.is_mention_only := by
  simp only [puEmoji]; repeat' split
  all_goals rfl

@[simp] lemma puEmoji_chan (st : ParserState) (k : Int) (u : TelegramUser) :
    (puEmoji st k u).has_channel = u.has_channel := by
  simp only [puEmoji]; repeat' split
  all_goals rfl

@[simp] lemma puEmoji_fmd (st : ParserState) (k : Int) (u : TelegramUser) :
    (puEmoji st k u).first_message_date = u.first_message_date := by
  simp only [puEmoji]; repeat' split
  all_goals rfl

@[simp] lemma puEmoji_reg (st : ParserState) (k : Int) (u : TelegramUser) :
    (puEmoji st k u).registration_date = u.registration_date := by
  simp only [puEmoji]; repeat' split
  all_goals rfl

@[simp] lemma puEmoji_frd (st : ParserState) (k : Int) (u : TelegramUser) :
    (puEmoji st k u).first_reaction_date = u.first_reaction_date := by
  simp only [puEmoji]; repeat' split
  all_goals rfl

lemma patchUser_flag (st : ParserState) (k : Int) (u : TelegramUser) :
    (patchUser st k u).is_mention_only = u.is_mention_only := by
  simp [patchUser]

lemma patchUser_chan (st : ParserState) (k : Int) (u : TelegramUser) :
    (patchUser st k u).has_channel = u.has_channel := by
  simp [patchUser]

lemma patchUser_fmd_inv (st : ParserState) (k : Int) (u : TelegramUser)
    (h : u.first_message_date = st.firstMsgDate k) :
    (patchUser st k u).first_message_date = st.firstMsgDate k := by
  simp only [patchUser, puEmoji_fmd, puReact_fmd, puMsgId_fmd]
  simp only [puMsg]; repeat' split
  all_goals simp_all

lemma patchUser_reg_inv (st : ParserState) (k : Int) (u : TelegramUser)
    (h : u.registration_date = st.firstMsgDate k) :
    (patchUser st k u).registration_date = st.firstMsgDate k := by
  simp only [patchUser, puEmoji_reg, puReact_reg, puMsgId_reg]
  simp only [puMsg]; repeat' split
  all_goals simp_all

lemma patchUser_frd_inv (st : ParserState) (k : Int) (u : TelegramUser)
    (h : u.first_reaction_date = st.firstReactDate k) :
    (patchUser st k u).first_reaction_date = st.firstReactDate k := by
  simp only [patchUser, puEmoji_frd, puReact, puMsgId_frd, puMsg_frd, h]
  repeat' split
  all_goals simp_all

/-! Section: State-component framing for the resolver steps -/

@[simp] lemma saveFirstMessage_users (st : ParserState) (uid : Int)
    (md : Option Nat) (mid : Option Int) :
    (saveFirstMessage st uid md mid).users = st.users := by
  unfold saveFirstMessage; repeat' split
  all_goals rfl

@[simp] lemma saveFirstMessage_userKeys (st : ParserState) (uid : Int)
    (md : Option Nat) (mid : Option Int) :
    (saveFirstMessage st uid md mid).userKeys = st.userKeys := by
  unfold saveFirstMessage; repeat' split
  all_goals rfl

@[simp] lemma saveFirstMessage_frd (st : ParserState) (uid : Int)
    (md : Option Nat) (mid : Option Int) :
    (saveFirstMessage st uid md mid).firstReactDate = st.firstReactDate := by
  unfold saveFirstMessage; repeat' split
  all_goals rfl

@[simp] lemma saveFirstMessage_fre (st : ParserState) (uid : Int)
    (md : Option Nat) (mid : Option Int) :
    (saveFirstMessage st uid md mid).firstReactEmoji = st.firstReactEmoji := by
  unfold saveFirstMessage; repeat' split
  all_goals rfl

@[simp] lemma saveFirstReaction_users (st : ParserState) (uid : Int)
    (rd : Option Nat) (emoji : String) :
    (saveFirstReaction st uid rd emoji).users = st.users := by
  unfold saveFirstReaction; repeat' split
  all_goals rfl

@[simp] lemma saveFirstReaction_userKeys (st : ParserState) (uid : Int)
    (rd : Option Nat) (emoji : String) :
    (saveFirstReaction st uid rd emoji).userKeys = st.userKeys := by
  unfold saveFirstReaction; repeat' split
  all_goals rfl

@[simp] lemma saveFirstReaction_fmd (st : ParserState) (uid : Int)
    (rd : Option Nat) (emoji : String) :
    (saveFirstReaction st uid rd emoji).firstMsgDate = st.firstMsgDate := by
  unfold saveFirstReaction; repeat' split
  all_goals rfl

@[simp] lemma saveFirstReaction_fmi (st : ParserState) (uid : Int)
    (rd : Option Nat) (emoji : String) :
    (saveFirstReaction st uid rd emoji).firstMsgId = st.firstMsgId := by
  unfold saveFirstReaction; repeat' split
  all_goals rfl

@[simp] lemma addUser_fmd (st : ParserState) (user : TelegramUser) :
    (addUser st user).firstMsgDate = st.firstMsgDate := by
  unfold addUser; repeat' split
  all_goals rfl

@[simp] lemma addUser_fmi (st : ParserState) (user : TelegramUser) :
    (addUser st user).firstMsgId = st.firstMsgId := by
  unfold addUser; repeat' split
  all_goals rfl

@[simp] lemma addUser_frd (st : ParserState) (user : TelegramUser) :
    (addUser st user).firstReactDate = st.firstReactDate := by
  unfold addUser; repeat' split
  all_goals rfl

@[simp] lemma addUser_fre (st : ParserState) (user : TelegramUser) :
    (addUser st user).firstReactEmoji = st.firstReactEmoji := by
  unfold addUser; repeat' split
  all_goals rfl

/-! Section: Per-observation characterization of the resolver step -/

/-- The message date an observation contributes to key `k` (only a
non-deleted user with id `k ≠ 0` contributes, per the guards of lines
79 and 104 of base_parser.py). -/
def obsMsgDate (o : Obs) (k : Int) : Option Nat :=
  match o.user with
  | some u =>
    if !u.is_deleted && u.user_id == k && k != 0 then o.message_date else none
  | none => none

/-- The reaction date an observation contributes to key `k`. -/
def obsReactDate (o : Obs) (k : Int) : Option Nat :=
  match o.user with
  | some u =>
    if !u.is_deleted && u.user_id == k && k != 0 then o.reaction_date else none
  | none => none

/-- The key an observation adds to the roster, when any. -/
def obsKey (o : Obs) : Option Int :=
  match o.user with
  | some u => if u.is_deleted then none else some u.user_id
  | none => none

/-- The mention-only flag an observation contributes to key `k`. -/
def obsFlag (o : Obs) (k : Int) : Option Bool :=
  match o.user with
  | some u =>
    if !u.is_deleted && u.user_id == k then some u.is_mention_only else none
  | none => none

/-- The running-minimum step the date dictionaries perform. -/
def minStep (a : Option Nat) (d : Nat) : Option Nat :=
  some (match a with
        | none => d
        | some c => if d < c then d else c)

/-- The running-conjunction step the mention-only flag performs. -/
def andStep (a : Option Bool) (f : Bool) : Option Bool :=
  some (a.getD true && f)

lemma observe_fmd (st : ParserState) (o : Obs) (k : Int) :
    (observe st o).firstMsgDate k =
      match obsMsgDate o k with
      | none => st.firstMsgDate k
      | some d => minStep (st.firstMsgDate k) d := by
  rcases ho : o.user with _ | u
  · simp [observe, obsMsgDate, ho]
  · by_cases hd : u.is_deleted
    · simp [observe, obsMsgDate, ho, hd]
    · have hL : (observe st o).firstMsgDate k
          = (saveFirstMessage st u.user_id o.message_date o.message_id).firstMsgDate k := by
        simp [observe, ho, hd]
      rw [hL]
      unfold obsMsgDate saveFirstMessage
      by_cases hk : u.user_id = k
      · subst hk
        by_cases h0 : u.user_id = 0
        · simp only [ho, hd, h0]
          repeat' split
          all_goals simp_all [minStep]
        · have hb : (u.user_id != 0) = true := by simp [h0]
          simp only [ho, hd, hb, beq_self_eq_true, Bool.not_false, Bool.true_and,
                     Bool.and_true, if_neg h0]
          repeat' split
          all_goals simp_all [upd, minStep]
          all_goals (repeat' split)
          all_goals (try simp_all)
          all_goals omega
      · have hb : (u.user_id == k) = false := by simp [hk]
        have hk2 : ¬(k = u.user_id) := fun h => hk h.symm
        simp only [ho, hd, hb, Bool.not_false, Bool.true_and, Bool.false_and,
                   Bool.and_false]
        repeat' split
        all_goals simp_all [upd]

lemma observe_frd (st : ParserState) (o : Obs) (k : Int) :
    (observe st o).firstReactDate k =
      match obsReactDate o k with
      | none => st.firstReactDate k
      | some d => minStep (st.firstReactDate k) d := by
  rcases ho : o.user with _ | u
  · simp [observe, obsReactDate, ho]
  · by_cases hd : u.is_deleted
    · simp [observe, obsReactDate, ho, hd]
    · have hL : (observe st o).firstReactDate k
          = (saveFirstReaction st u.user_id o.reaction_date o.reaction_emoji).firstReactDate k := by
        simp only [observe, ho, hd]
        simp only [Bool.false_eq_true, if_false, addUser_frd]
        unfold saveFirstReaction
        repeat' split
        all_goals simp_all [saveFirstMessage_frd, upd]
        all_goals (exfalso; omega)
      rw [hL]
      unfold obsReactDate saveFirstReaction
      by_cases hk : u.user_id = k
      · subst hk
        by_cases h0 : u.user_id = 0
        · simp only [ho, hd, h0]
          repeat' split
          all_goals simp_all [minStep]
        · have hb : (u.user_id != 0) = true := by simp [h0]
          simp only [ho, hd, hb, beq_self_eq_true, Bool.not_false, Bool.true_and,
                     Bool.and_true, if_neg h0]
          repeat' split
          all_goals simp_all [upd, minStep]
          all_goals (repeat' split)
          all_goals (try simp_all)
          all_goals omega
      · have hb : (u.user_id == k) = false := by simp [hk]
        have hk2 : ¬(k = u.user_id) := fun h => hk h.symm
        simp only [ho, hd, hb, Bool.not_false, Bool.true_and, Bool.false_and,
                   Bool.and_false]
        repeat' split
        all_goals simp_all [upd]

lemma observe_users_isSome (st : ParserState) (o : Obs) (k : Int) :
    ((observe st o).users k).isSome =
      ((st.users k).isSome || (obsKey o == some k)) := by
  rcases ho : o.user with _ | u
  · simp [observe, obsKey, ho]
  · by_cases hd : u.is_deleted
    · simp [observe, obsKey, ho, hd]
    · have hL : (observe st o).users k
          = (addUser (saveFirstReaction (saveFirstMessage st u.user_id
              o.message_date o.message_id) u.user_id o.reaction_date
              o.reaction_emoji) u).users k := by
        simp [observe, ho, hd]
      rw [hL]
      unfold addUser obsKey
      by_cases hk : u.user_id = k
      · subst hk
        simp only [ho, hd, Bool.false_eq_true, if_false, saveFirstReaction_users,
                   saveFirstMessage_users, beq_self_eq_true, Bool.or_true]
        split
        all_goals simp [upd]
      · have hk2 : ¬(k = u.user_id) := fun h => hk h.symm
        have hb : (some u.user_id == some k) = false := by simp [hk]
        simp only [ho, hd, Bool.false_eq_true, if_false, saveFirstReaction_users,
                   saveFirstMessage_users, hb, Bool.or_false]
        split
        all_goals simp [upd, hk2]

lemma observe_users_flag (st : ParserState) (o : Obs) (k : Int) :
    ((observe st o).users k).map (fun u => u.is_mention_only) =
      match obsFlag o k with
      | none => (st.users k).map (fun u => u.is_mention_only)
      | some f => andStep (((st.users k).map (fun u => u.is_mention_only))) f := by
  rcases ho : o.user with _ | u
  · simp [observe, obsFlag, ho]
  · by_cases hd : u.is_deleted
    · simp [observe, obsFlag, ho, hd]
    · have hL : (observe st o).users k
          = (addUser (saveFirstReaction (saveFirstMessage st u.user_id
              o.message_date o.message_id) u.user_id o.reaction_date
              o.reaction_emoji) u).users k := by
        simp [observe, ho, hd]
      rw [hL]
      unfold addUser obsFlag
      by_cases hk : u.user_id = k
      · subst hk
        simp only [ho, hd, Bool.false_eq_true, if_false, saveFirstReaction_users,
                   saveFirstMessage_users, beq_self_eq_true, Bool.not_false,
                   Bool.true_and]
        split
        · rename_i e0 he0
          simp [upd, mergeExisting_flag, he0, andStep]
        · rename_i he0
          simp [upd, insertNew_flag, he0, andStep]
      · have hk2 : ¬(k = u.user_id) := fun h => hk h.symm
        have hb : (u.user_id == k) = false := by simp [hk]
        simp only [ho, hd, Bool.false_eq_true, if_false, saveFirstReaction_users,
                   saveFirstMessage_users, hb, Bool.not_false, Bool.true_and,
                   Bool.and_false, Bool.false_and]
        split
        all_goals simp [upd, hk2]

/-! Section: Whole-stream characterizations and permutation invariance -/

lemma foldl_observe_fmd (l : List Obs) (st : ParserState) (k : Int) :
    (l.foldl observe st).firstMsgDate k =
      (l.filterMap (fun o => obsMsgDate o k)).foldl minStep (st.firstMsgDate k) := by
  induction l generalizing st with
  | nil => rfl
  | cons o l ih =>
    simp only [List.foldl_cons, List.filterMap_cons]
    cases h : obsMsgDate o k with
    | none => rw [ih, observe_fmd, h]
    | some d => simp only [List.foldl_cons]; rw [ih, observe_fmd, h]

lemma foldl_observe_frd (l : List Obs) (st : ParserState) (k : Int) :
    (l.foldl observe st).firstReactDate k =
      (l.filterMap (fun o => obsReactDate o k)).foldl minStep (st.firstReactDate k) := by
  induction l generalizing st with
  | nil => rfl
  | cons o l ih =>
    simp only [List.foldl_cons, List.filterMap_cons]
    cases h : obsReactDate o k with
    | none => rw [ih, observe_frd, h]
    | some d => simp only [List.foldl_cons]; rw [ih, observe_frd, h]

lemma foldl_observe_isSome (l : List Obs) (st : ParserState) (k : Int) :
    ((l.foldl observe st).users k).isSome =
      ((st.users k).isSome || l.any (fun o => obsKey o == some k)) := by
  induction l generalizing st with
  | nil => simp
  | cons o l ih =>
    simp only [List.foldl_cons, List.any_cons]
    rw [ih, observe_users_isSome]
    cases (st.users k).isSome <;> cases (obsKey o == some k) <;> simp

lemma foldl_observe_flag (l : List Obs) (st : ParserState) (k : Int) :
    ((l.foldl observe st).users k).map (fun u => u.is_mention_only) =
      (l.filterMap (fun o => obsFlag o k)).foldl andStep
        ((st.users k).map (fun u => u.is_mention_only)) := by
  induction l generalizing st with
  | nil => rfl
  | cons o l ih =>
    simp only [List.foldl_cons, List.filterMap_cons]
    cases h : obsFlag o k with
    | none => rw [ih, observe_users_flag, h]
    | some f => simp only [List.foldl_cons]; rw [ih, observe_users_flag, h]

lemma foldl_perm_comm {α β : Type} (f : β → α → β)
    (hc : ∀ b x y, f (f b x) y = f (f b y) x) {l1 l2 : List α}
    (h : l1.Perm l2) : ∀ b, l1.foldl f b = l2.foldl f b := by
  induction h with
  | nil => intro b; rfl
  | cons x _ ih => intro b; simp only [List.foldl_cons]; exact ih _
  | swap x y l => intro b; simp only [List.foldl_cons, hc]
  | trans _ _ ih1 ih2 => intro b; rw [ih1, ih2]

lemma minStep_comm (a : Option Nat) (d1 d2 : Nat) :
    minStep (minStep a d1) d2 = minStep (minStep a d2) d1 := by
  cases a <;> simp [minStep] <;> split_ifs <;> first | rfl | omega

lemma andStep_comm (a : Option Bool) (f1 f2 : Bool) :
    andStep (andStep a f1) f2 = andStep (andStep a f2) f1 := by
  cases a <;> simp [andStep] <;>
    cases f1 <;> cases f2 <;> simp

lemma any_perm {α : Type} {l1 l2 : List α} (h : l1.Perm l2) (p : α → Bool) :
    l1.any p = l2.any p := by
  induction h with
  | nil => rfl
  | cons x _ ih => simp only [List.any_cons, ih]
  | swap x y l =>
    simp only [List.any_cons]
    cases p x <;> cases p y <;> simp
  | trans _ _ ih1 ih2 => rw [ih1, ih2]

/-! Section: The correlation-field invariant of resolver states -/

/-- An observation is extractor-shaped: the correlation-derived fields of
its user are unset.  Every user the source constructs and feeds to
`_add_user` (authors, mention users, reactors) has these fields at their
defaults — the dates live in the dictionaries, not on the incoming user. -/
def wfObs (o : Obs) : Bool :=
  match o.user with
  | none => true
  | some u =>
    u.registration_date.isNone && u.first_message_date.isNone &&
    u.first_message_id.isNone && u.first_reaction_date.isNone &&
    u.first_reaction_emoji.isNone

/-- Invariant: every stored roster entry carries exactly the dictionary
values of its key in its date fields. -/
def StateWF (st : ParserState) : Prop :=
  ∀ k u, st.users k = some u →
    u.first_message_date = st.firstMsgDate k ∧
    u.registration_date = st.firstMsgDate k ∧
    u.first_reaction_date = st.firstReactDate k

lemma initState_WF : StateWF initState := by
  intro k u hu
  simp [initState] at hu

lemma observe_WF (st : ParserState) (o : Obs) (hwf : wfObs o = true)
    (hst : StateWF st) : StateWF (observe st o) := by
  intro k u hu
  have hfmd := observe_fmd st o k
  have hfrd := observe_frd st o k
  rcases ho : o.user with _ | u0
  · have hid : observe st o = st := by simp [observe, ho]
    rw [hid] at hu ⊢
    exact hst k u hu
  · by_cases hd : u0.is_deleted
    · have hid : observe st o = st := by simp [observe, ho, hd]
      rw [hid] at hu ⊢
      exact hst k u hu
    · have hwu : u0.registration_date = none ∧ u0.first_message_date = none ∧
          u0.first_message_id = none ∧ u0.first_reaction_date = none ∧
          u0.first_reaction_emoji = none := by
        simp only [wfObs, ho, Bool.and_eq_true, Option.isNone_iff_eq_none] at hwf
        tauto
      set st2 := saveFirstReaction (saveFirstMessage st u0.user_id
        o.message_date o.message_id) u0.user_id o.reaction_date
        o.reaction_emoji with hst2
      have hobs : observe st o = addUser st2 u0 := by
        simp [observe, ho, hd, hst2]
      have hOm : (observe st o).firstMsgDate = st2.firstMsgDate := by
        rw [hobs]; simp
      have hOr : (observe st o).firstReactDate = st2.firstReactDate := by
        rw [hobs]; simp
      have hmchar : st2.firstMsgDate k =
          match obsMsgDate o k with
          | none => st.firstMsgDate k
          | some d => minStep (st.firstMsgDate k) d := by
        rw [← congrFun hOm k]; exact hfmd
      have hrchar : st2.firstReactDate k =
          match obsReactDate o k with
          | none => st.firstReactDate k
          | some d => minStep (st.firstReactDate k) d := by
        rw [← congrFun hOr k]; exact hfrd
      have husers2 : st2.users = st.users := by simp [hst2]
      rw [hobs] at hu
      rw [hOm, hOr]
      by_cases hk : u0.user_id = k
      · subst hk
        unfold addUser at hu
        simp only [hd, Bool.false_eq_true, if_false] at hu
        rcases he0 : st2.users u0.user_id with _ | e0
        · rw [he0] at hu
          simp only [upd, eq_self_iff_true, if_true, Option.some.injEq] at hu
          subst hu
          refine ⟨?_, ?_, ?_⟩
          · rw [insertNew_fmd]
            rcases hcc : st2.firstMsgDate u0.user_id with _ | d <;>
              simp [hcc, hwu.2.1]
          · rw [insertNew_reg]
            rcases hcc : st2.firstMsgDate u0.user_id with _ | d <;>
              simp [hcc, hwu.1]
          · rw [insertNew_frd]
            rcases hcc : st2.firstReactDate u0.user_id with _ | d <;>
              simp [hcc, hwu.2.2.2.1]
        · rw [he0] at hu
          simp only [upd, eq_self_iff_true, if_true, Option.some.injEq] at hu
          subst hu
          have he0' : st.users u0.user_id = some e0 := by rw [← husers2]; exact he0
          have hinv := hst u0.user_id e0 he0'
          refine ⟨?_, ?_, ?_⟩
          · have he := hinv.1
            rw [mergeExisting_fmd, hmchar]
            rcases hob : obsMsgDate o u0.user_id with _ | d <;>
              rcases hcur : st.firstMsgDate u0.user_id with _ | cur <;>
              rw [hcur] at he <;> rw [he] <;>
              simp only [minStep] <;>
              split_ifs <;> first | rfl | omega | simp_all | (exfalso; omega)
          · have he := hinv.2.1
            rw [mergeExisting_reg, hmchar]
            rcases hob : obsMsgDate o u0.user_id with _ | d <;>
              rcases hcur : st.firstMsgDate u0.user_id with _ | cur <;>
              rw [hcur] at he <;> rw [he] <;>
              simp [minStep]
          · have he := hinv.2.2
            rw [mergeExisting_frd, hrchar]
            rcases hob : obsReactDate o u0.user_id with _ | d <;>
              rcases hcur : st.firstReactDate u0.user_id with _ | cur <;>
              rw [hcur] at he <;> rw [he] <;>
              simp only [minStep] <;>
              split_ifs <;> first | rfl | omega | simp_all | (exfalso; omega)
      · have hk2 : ¬(k = u0.user_id) := fun h => hk h.symm
        have husers : (addUser st2 u0).users k = st.users k := by
          unfold addUser
          simp only [hd, Bool.false_eq_true, if_false]
          rcases he0 : st2.users u0.user_id with _ | e0 <;>
            simp [upd, hk2, husers2]
        rw [husers] at hu
        have h := hst k u hu
        have hbk : (u0.user_id == k) = false := by simp [hk]
        rw [hmchar, hrchar]
        simp only [obsMsgDate, obsReactDate, ho, hbk, Bool.and_false,
                   Bool.false_and]
        exact h

lemma runObs_WF (l : List Obs) (hwf : ∀ o ∈ l, wfObs o = true) :
    StateWF (runObs l) := by
  suffices h : ∀ (l2 : List Obs) (st : ParserState), (∀ o ∈ l2, wfObs o = true) → StateWF st →
      StateWF (l2.foldl observe st) by
    exact h l initState hwf initState_WF
  intro l2
  induction l2 with
  | nil => intro st _ h; exact h
  | cons o t ih =>
    intro st hw h
    simp only [List.foldl_cons]
    exact ih _ (fun x hx => hw x (List.mem_cons_of_mem _ hx))
      (observe_WF st o (hw o (List.mem_cons_self _ _)) h)

lemma resolvedAt_isSome (l : List Obs) (k : Int) :
    (resolvedAt l k).isSome = l.any (fun o => obsKey o == some k) := by
  have h := foldl_observe_isSome l initState k
  have h0 : (initState.users k).isSome = false := rfl
  rw [h0, Bool.false_or] at h
  unfold resolvedAt
  have hm : (((runObs l).users k).map (patchUser (runObs l) k)).isSome
      = ((runObs l).users k).isSome := by
    cases (runObs l).users k <;> rfl
  rw [hm]
  exact h

lemma resolvedAt_fmd (l : List Obs) (hwf : ∀ o ∈ l, wfObs o = true) (k : Int) :
    (resolvedAt l k).map (fun u => u.first_message_date) =
      if (resolvedAt l k).isSome then some ((runObs l).firstMsgDate k)
      else none := by
  have hW := runObs_WF l hwf
  unfold resolvedAt
  cases hu : (runObs l).users k with
  | none => simp
  | some u => simp [patchUser_fmd_inv _ _ _ (hW k u hu).1]

lemma resolvedAt_reg (l : List Obs) (hwf : ∀ o ∈ l, wfObs o = true) (k : Int) :
    (resolvedAt l k).map (fun u => u.registration_date) =
      if (resolvedAt l k).isSome then some ((runObs l).firstMsgDate k)
      else none := by
  have hW := runObs_WF l hwf
  unfold resolvedAt
  cases hu : (runObs l).users k with
  | none => simp
  | some u => simp [patchUser_reg_inv _ _ _ (hW k u hu).2.1]

lemma resolvedAt_frd (l : List Obs) (hwf : ∀ o ∈ l, wfObs o = true) (k : Int) :
    (resolvedAt l k).map (fun u => u.first_reaction_date) =
      if (resolvedAt l k).isSome then some ((runObs l).firstReactDate k)
      else none := by
  have hW := runObs_WF l hwf
  unfold resolvedAt
  cases hu : (runObs l).users k with
  | none => simp
  | some u => simp [patchUser_frd_inv _ _ _ (hW k u hu).2.2]

lemma resolvedAt_flag (l : List Obs) (k : Int) :
    (resolvedAt l k).map (fun u => u.is_mention_only) =
      ((runObs l).users k).map (fun u => u.is_mention_only) := by
  unfold resolvedAt
  cases hu : (runObs l).users k <;> simp [patchUser_flag]

/-- Two author observations for the same key that disagree on username and
first name; used to exhibit the order dependence of the merged text fields. -/
def c1ObsA : Obs :=
  mkObsPlain { user_id := 1, username := some "alice", first_name := some "Anna" }

/-- The conflicting second observation for key 1. -/
def c1ObsB : Obs :=
  mkObsPlain { user_id := 1, username := some "bob", first_name := some "Bea" }

/-- C1 (counterexample): The claim "for every permutation of the
observations, `get_unique_users()` yields the same roster as a set —
including username and name parts" is false: feeding the same two
observations for key 1 in the two orders yields rosters that are not even
permutations of each other (username is last-wins, so the second order
keeps "alice"; first name is first-non-empty-wins, so it keeps "Bea").
Both rosters are singletons, so set equality fails as well. -/
theorem c1_order_independence_counterexample :
    ¬ (parseFileUsers [c1ObsA, c1ObsB]).Perm (parseFileUsers [c1ObsB, c1ObsA]) := by
  decide

/-- C1 (amended): Order independence of resolution holds for the
key-set of the roster and, per key, for the earliest-message timestamp,
the registration date, the earliest-reaction timestamp, and the
mention-only flag: for any two permutations of one file's observation
stream (extractor-shaped: incoming users carry no pre-set correlation
fields, as every constructor in the source guarantees), the resolved entry
for every key agrees on presence and on those fields.  The merged text
fields (username, name parts, phone, bio, mention string), the channel
flag, and the first-message id / first-reaction emoji may depend on
processing order when observations conflict, as the counterexample shows. -/
theorem c1_order_independence_amended
    (l1 l2 : List Obs) (hwf : ∀ o ∈ l1, wfObs o = true) (hp : l1.Perm l2)
    (k : Int) :
    (resolvedAt l1 k).isSome = (resolvedAt l2 k).isSome ∧
    (resolvedAt l1 k).map (fun u => u.first_message_date)
      = (resolvedAt l2 k).map (fun u => u.first_message_date) ∧
    (resolvedAt l1 k).map (fun u => u.registration_date)
      = (resolvedAt l2 k).map (fun u => u.registration_date) ∧
    (resolvedAt l1 k).map (fun u => u.first_reaction_date)
      = (resolvedAt l2 k).map (fun u => u.first_reaction_date) ∧
    (resolvedAt l1 k).map (fun u => u.is_mention_only)
      = (resolvedAt l2 k).map (fun u => u.is_mention_only) := by
  have hwf2 : ∀ o ∈ l2, wfObs o = true := fun o ho => hwf o (hp.mem_iff.mpr ho)
  have hsome : (resolvedAt l1 k).isSome = (resolvedAt l2 k).isSome := by
    rw [resolvedAt_isSome, resolvedAt_isSome]
    exact any_perm hp _
  have hdm : (runObs l1).firstMsgDate k = (runObs l2).firstMsgDate k := by
    unfold runObs
    rw [foldl_observe_fmd, foldl_observe_fmd]
    exact foldl_perm_comm minStep minStep_comm (hp.filterMap _) _
  have hdr : (runObs l1).firstReactDate k = (runObs l2).firstReactDate k := by
    unfold runObs
    rw [foldl_observe_frd, foldl_observe_frd]
    exact foldl_perm_comm minStep minStep_comm (hp.filterMap _) _
  refine ⟨hsome, ?_, ?_, ?_, ?_⟩
  · rw [resolvedAt_fmd l1 hwf k, resolvedAt_fmd l2 hwf2 k, hsome, hdm]
  · rw [resolvedAt_reg l1 hwf k, resolvedAt_reg l2 hwf2 k, hsome, hdm]
  · rw [resolvedAt_frd l1 hwf k, resolvedAt_frd l2 hwf2 k, hsome, hdr]
  · rw [resolvedAt_flag, resolvedAt_flag]
    unfold runObs
    rw [foldl_observe_flag, foldl_observe_flag]
    exact foldl_perm_comm andStep andStep_comm (hp.filterMap _) _

/-- Witness for C1 (amended): instantiated at the two concrete conflicting
observations and key 1. -/
theorem c1_order_independence_amended_witness :
    (resolvedAt [c1ObsA, c1ObsB] 1).isSome = (resolvedAt [c1ObsB, c1ObsA] 1).isSome ∧
    (resolvedAt [c1ObsA, c1ObsB] 1).map (fun u => u.first_message_date)
      = (resolvedAt [c1ObsB, c1ObsA] 1).map (fun u => u.first_message_date) :=
  ⟨(c1_order_independence_amended [c1ObsA, c1ObsB] [c1ObsB, c1ObsA]
      (by decide) (by decide) 1).1,
   (c1_order_independence_amended [c1ObsA, c1ObsB] [c1ObsB, c1ObsA]
      (by decide) (by decide) 1).2.1⟩

/-- The deletion observation the structured extractor produces for an
explicit tombstone record. -/
def c2DeletionObs : Obs :=
  { user := extractUserFromObj { id := some IdField.deletedAccount } }

/-- A non-deletion observation whose key is also `0` (an embedded author
object with no `id` field defaults to id `0`). -/
def c2ZeroObs : Obs := { user := extractUserFromObj {} }

/-- C2 (counterexample): "Once a deletion observation is seen for a key,
that key never appears in the final roster regardless of later non-deletion
observations carrying the same key" is false: every deletion observation
carries key 0, and after seeing one, a later non-deletion observation with
key 0 (an author object without an id) still lands in the roster — the
final roster is exactly the key-0 entry. -/
theorem c2_deletion_dominance_counterexample :
    ((runObs [c2DeletionObs, c2ZeroObs]).users 0).isSome = true ∧
    (parseFileUsers [c2DeletionObs, c2ZeroObs]).map (fun u => u.user_id) = [0] := by
  constructor <;> decide

/-- C2 (amended): A deletion observation leaves the resolver state
entirely unchanged — it never itself enters the roster, but it also does
not remove its key from future consideration: deleting it from the stream
(wherever it occurs) yields the identical final state, so later
observations re-add the key exactly as if the deletion had never been
seen. -/
theorem c2_deletion_dominance_amended
    (l1 l2 : List Obs) (o : Obs) (u : TelegramUser)
    (ho : o.user = some u) (hd : u.is_deleted = true) :
    runObs (l1 ++ o :: l2) = runObs (l1 ++ l2) := by
  unfold runObs
  rw [List.foldl_append, List.foldl_append, List.foldl_cons]
  have hstep : observe (List.foldl observe initState l1) o
      = List.foldl observe initState l1 := by
    simp [observe, ho, hd]
  rw [hstep]

/-- Witness for C2 (amended): the concrete deletion observation is a no-op
between an empty prefix and an empty suffix. -/
theorem c2_deletion_dominance_amended_witness :
    runObs ([] ++ c2DeletionObs :: []) = runObs ([] ++ []) :=
  c2_deletion_dominance_amended [] [] c2DeletionObs
    { user_id := 0, is_deleted := true, username := none,
      first_name := some "Deleted Account", last_name := none }
    rfl rfl

/-- The aggregator entry already present (first file): no phone, no dates. -/
def c3Existing : TelegramUser := { user_id := 1 }

/-- The second file's resolved identity for the same key: carries a phone
number and an earliest-message date. -/
def c3Incoming : TelegramUser :=
  { user_id := 1, phone_number := some "123", first_message_date := some 5 }

/-- C3 (counterexample): The aggregator merge does not refine the
resolver merge: replaying the second identity into a resolver holding the
first would fill the empty phone (first-non-empty rule of §4.4) and adopt
the earlier message date, but `UserProcessor._merge_users` leaves both
untouched — the merged entry differs from the §4.4-policy merge. -/
theorem c3_aggregator_refinement_counterexample :
    ((procMergeUsers procInit [c3Existing, c3Incoming]).users 1).map
        (fun u => u.phone_number) = some none ∧
    (specIdentityMerge c3Existing c3Incoming).phone_number = some "123" ∧
    ((procMergeUsers procInit [c3Existing, c3Incoming]).users 1)
      ≠ some (specIdentityMerge c3Existing c3Incoming) := by
  refine ⟨by decide, by decide, by decide⟩

/-- C3 (amended): The aggregator merge follows the resolver's §4.4
field policy only for the handle (last-wins) and the given/family name
parts (first-non-empty); every other field — phone, profile text, mention
string, channel flag, bot and mention-only flags, and all
first-message/first-reaction data — is NOT merged: the aggregator keeps
the first file's values and discards the second file's. -/
theorem c3_aggregator_refinement_amended (e u : TelegramUser) :
    (codeMergePair e u).username = (specIdentityMerge e u).username ∧
    (codeMergePair e u).first_name = (specIdentityMerge e u).first_name ∧
    (codeMergePair e u).last_name = (specIdentityMerge e u).last_name ∧
    (codeMergePair e u).phone_number = e.phone_number ∧
    (codeMergePair e u).bio = e.bio ∧
    (codeMergePair e u).mention = e.mention ∧
    (codeMergePair e u).has_channel = e.has_channel ∧
    (codeMergePair e u).is_bot = e.is_bot ∧
    (codeMergePair e u).is_mention_only = e.is_mention_only ∧
    (codeMergePair e u).first_message_date = e.first_message_date ∧
    (codeMergePair e u).first_message_id = e.first_message_id ∧
    (codeMergePair e u).first_reaction_date = e.first_reaction_date ∧
    (codeMergePair e u).first_reaction_emoji = e.first_reaction_emoji := by
  unfold codeMergePair specIdentityMerge
  by_cases h1 : strT u.username <;> by_cases h2 : strT u.first_name <;>
    by_cases h3 : strT e.first_name <;> by_cases h4 : strT u.last_name <;>
    by_cases h5 : strT e.last_name <;>
    simp [h1, h2, h3, h4, h5]

/-- C9 (confirmed): Every deletion observation the structured-record
extractor produces is the one fixed record with key 0 and given name
"Deleted Account", whatever else the tombstone record carried — so
deletions for distinct participants are indistinguishable by key and never
carry the participant's own id. -/
theorem c9_deletion_tombstone_constant (ud : UserData)
    (h : ud.id = some IdField.deletedAccount) :
    extractUserFromObj ud =
      some { user_id := 0, is_deleted := true, username := none,
             first_name := some "Deleted Account", last_name := none } ∧
    ∀ ud2 : UserData, ud2.id = some IdField.deletedAccount →
      extractUserFromObj ud = extractUserFromObj ud2 := by
  constructor
  · simp [extractUserFromObj, h]
  · intro ud2 h2
    simp [extractUserFromObj, h, h2]

/-- Witness for C9: a tombstone with a username and bio still extracts to
the fixed deleted record. -/
theorem c9_deletion_tombstone_constant_witness :
    extractUserFromObj
        { id := some IdField.deletedAccount, username := some "gone",
          bio := some "t.me/x" } =
      some { user_id := 0, is_deleted := true, username := none,
             first_name := some "Deleted Account", last_name := none } :=
  (c9_deletion_tombstone_constant
    { id := some IdField.deletedAccount, username := some "gone",
      bio := some "t.me/x" } rfl).1

lemma detectChannel_ne_false (bio : String) (ud : UserData) :
    detectChannel bio ud ≠ some false := by
  unfold detectChannel
  split_ifs <;> simp

lemma extractUserFromObj_chan (ud : UserData) (u : TelegramUser)
    (heq : extractUserFromObj ud = some u) : u.has_channel ≠ some false := by
  unfold extractUserFromObj at heq
  split at heq
  · injection heq with heq
    subst heq
    simp
  · injection heq with heq
    subst heq
    exact detectChannel_ne_false (ud.bio.getD "") ud

lemma extractUserFromMessage_chan (ff : FromField) (fid : FromIdVal)
    (u : TelegramUser) (heq : extractUserFromMessage ff fid = some u) :
    u.has_channel ≠ some false := by
  cases ff with
  | str s =>
    simp only [extractUserFromMessage, extractUserFromStr] at heq
    split at heq
    · cases heq
    · rename_i uid _
      injection heq with heq
      subst heq
      simp [strAuthorUser]
  | obj ud => exact extractUserFromObj_chan ud u heq
  | other => exact extractUserFromObj_chan {} u heq

lemma observe_chanOK (st : ParserState) (o : Obs)
    (ho : ∀ u, o.user = some u → u.has_channel ≠ some false)
    (hst : ∀ k u, st.users k = some u → u.has_channel ≠ some false) :
    ∀ k u, (observe st o).users k = some u → u.has_channel ≠ some false := by
  intro k u hu
  rcases hou : o.user with _ | u0
  · rw [show observe st o = st from by simp [observe, hou]] at hu
    exact hst k u hu
  · by_cases hd : u0.is_deleted
    · rw [show observe st o = st from by simp [observe, hou, hd]] at hu
      exact hst k u hu
    · set st2 := saveFirstReaction (saveFirstMessage st u0.user_id
        o.message_date o.message_id) u0.user_id o.reaction_date
        o.reaction_emoji with hst2
      have hobs : observe st o = addUser st2 u0 := by
        simp [observe, hou, hd, hst2]
      have husers2 : st2.users = st.users := by simp [hst2]
      rw [hobs] at hu
      unfold addUser at hu
      simp only [hd, Bool.false_eq_true, if_false] at hu
      by_cases hk : u0.user_id = k
      · subst hk
        rcases he0 : st2.users u0.user_id with _ | e0
        · rw [he0] at hu
          simp only [upd, eq_self_iff_true, if_true, Option.some.injEq] at hu
          subst hu
          rw [insertNew_chan]
          exact ho u0 hou
        · rw [he0] at hu
          simp only [upd, eq_self_iff_true, if_true, Option.some.injEq] at hu
          subst hu
          rw [mergeExisting_chan]
          split
          · exact ho u0 hou
          · exact hst u0.user_id e0 (husers2 ▸ he0)
      · have hk2 : ¬(k = u0.user_id) := fun h => hk h.symm
        rcases he0 : st2.users u0.user_id with _ | e0 <;>
          rw [he0] at hu <;>
          simp only [upd, if_neg hk2] at hu <;>
          exact hst k u (husers2 ▸ hu)

/-- C10 (confirmed): The channel-presence detector returns only `none`
(unknown) or `some true`, never `some false`; every user any extraction
path produces carries a non-`some false` channel flag; and consequently no
roster a resolver run produces ever contains an identity with an
explicitly-false channel flag, as long as every observation fed in obeys
that (which, by the second conjunct, extractor output does). -/
theorem c10_channel_flag_never_false :
    (∀ (bio : String) (ud : UserData), detectChannel bio ud ≠ some false) ∧
    (∀ (ff : FromField) (fid : FromIdVal) (u : TelegramUser),
      extractUserFromMessage ff fid = some u → u.has_channel ≠ some false) ∧
    (∀ l : List Obs,
      (∀ o ∈ l, ∀ u, o.user = some u → u.has_channel ≠ some false) →
      ∀ u ∈ parseFileUsers l, u.has_channel ≠ some false) := by
  refine ⟨detectChannel_ne_false, extractUserFromMessage_chan, ?_⟩
  intro l hobs u hu
  have hrun : ∀ k v, (runObs l).users k = some v → v.has_channel ≠ some false := by
    unfold runObs
    have hgen : ∀ (l2 : List Obs) (st : ParserState),
        (∀ o ∈ l2, ∀ v, o.user = some v → v.has_channel ≠ some false) →
        (∀ k v, st.users k = some v → v.has_channel ≠ some false) →
        ∀ k v, (l2.foldl observe st).users k = some v →
          v.has_channel ≠ some false := by
      intro l2
      induction l2 with
      | nil => intro st _ h; exact h
      | cons o t ih =>
        intro st hw h
        simp only [List.foldl_cons]
        exact ih _ (fun x hx => hw x (List.mem_cons_of_mem _ hx))
          (observe_chanOK st o (hw o (List.mem_cons_self _ _)) h)
    intro k v
    exact hgen l initState hobs (by intro k' v' h'; simp [initState] at h') k v
  unfold parseFileUsers getUniqueUsers at hu
  rcases List.mem_filterMap.mp hu with ⟨k, _, hk⟩
  rcases hv : (runObs l).users k with _ | v
  · rw [hv] at hk; cases hk
  · rw [hv] at hk
    have hk' : patchUser (runObs l) k v = u := by
      cases hk; rfl
    rw [← hk', patchUser_chan]
    exact hrun k v hv

/-- A concrete embedded-author record whose bio names a channel link. -/
def c10UD : UserData := { id := some (IdField.intId 7), bio := some "канал t.me/x" }

/-- The observation extracted from `c10UD`. -/
def c10Obs : Obs := { user := extractUserFromObj c10UD }

/-- Witness for C10: a bio mentioning a channel makes the detector answer
non-false, and the roster of a run over that single observation carries no
explicitly-false channel flag. -/
theorem c10_channel_flag_never_false_witness :
    detectChannel "канал t.me/x" {} ≠ some false ∧
    (∀ u ∈ parseFileUsers [c10Obs], u.has_channel ≠ some false) :=
  ⟨c10_channel_flag_never_false.1 "канал t.me/x" {},
   c10_channel_flag_never_false.2.2 [c10Obs]
     (by
       intro o hoo v hv
       simp only [List.mem_singleton] at hoo
       subst hoo
       exact extractUserFromObj_chan c10UD v hv)⟩

lemma observe_frd_mono (st : ParserState) (o : Obs) (k : Int) (x : Nat)
    (h : st.firstReactDate k = some x) :
    ∃ y, (observe st o).firstReactDate k = some y ∧ y ≤ x := by
  rw [observe_frd]
  cases ho : obsReactDate o k with
  | none => exact ⟨x, h, le_refl x⟩
  | some d =>
    rw [h]
    refine ⟨if d < x then d else x, rfl, ?_⟩
    split <;> omega

lemma observe_fmd_mono (st : ParserState) (o : Obs) (k : Int) (x : Nat)
    (h : st.firstMsgDate k = some x) :
    ∃ y, (observe st o).firstMsgDate k = some y ∧ y ≤ x := by
  rw [observe_fmd]
  cases ho : obsMsgDate o k with
  | none => exact ⟨x, h, le_refl x⟩
  | some d =>
    rw [h]
    refine ⟨if d < x then d else x, rfl, ?_⟩
    split <;> omega

/-- C4 (confirmed): (a) After recording reaction timestamps `d1` then
`d2` for a fresh key (each accompanied by a non-empty symbol), the stored
earliest-reaction timestamp is `min d1 d2` and the stored symbol is the one
that came with the winning timestamp (on a tie the first stands, which is
the winner first recorded); (b)+(c) once set, the earliest-reaction and
earliest-message timestamps can only decrease or stay across any further
observation. -/
theorem c4_monotonic_reaction_minimum :
    (∀ (st : ParserState) (uid : Int) (d1 d2 : Nat) (e1 e2 : String),
      uid ≠ 0 → st.firstReactDate uid = none → e1 ≠ "" → e2 ≠ "" →
      (saveFirstReaction (saveFirstReaction st uid (some d1) e1) uid
          (some d2) e2).firstReactDate uid = some (min d1 d2) ∧
      (saveFirstReaction (saveFirstReaction st uid (some d1) e1) uid
          (some d2) e2).firstReactEmoji uid
        = some (if d2 < d1 then e2 else e1)) ∧
    (∀ (st : ParserState) (o : Obs) (k : Int) (x : Nat),
      st.firstReactDate k = some x →
      ∃ y, (observe st o).firstReactDate k = some y ∧ y ≤ x) ∧
    (∀ (st : ParserState) (o : Obs) (k : Int) (x : Nat),
      st.firstMsgDate k = some x →
      ∃ y, (observe st o).firstMsgDate k = some y ∧ y ≤ x) := by
  refine ⟨?_, observe_frd_mono, observe_fmd_mono⟩
  intro st uid d1 d2 e1 e2 h0 hfresh he1 he2
  have he1' : e1.isEmpty = false := by
    cases h : e1.isEmpty
    · rfl
    · exact absurd ((String.isEmpty_iff e1).mp h) he1
  have he2' : e2.isEmpty = false := by
    cases h : e2.isEmpty
    · rfl
    · exact absurd ((String.isEmpty_iff e2).mp h) he2
  have hstep1 : saveFirstReaction st uid (some d1) e1 =
      { st with firstReactDate := upd st.firstReactDate uid d1,
                firstReactEmoji := upd st.firstReactEmoji uid e1 } := by
    unfold saveFirstReaction
    dsimp only
    rw [if_neg h0, hfresh]
    simp [he1']
  rw [hstep1]
  unfold saveFirstReaction
  dsimp only
  rw [if_neg h0]
  have hcur : upd st.firstReactDate uid d1 uid = some d1 := by simp [upd]
  rw [hcur]
  by_cases hlt : d2 < d1
  · simp only [hlt, if_true, he2', Bool.not_false, upd, eq_self_iff_true]
    constructor
    · simp only [upd, eq_self_iff_true, if_true, Option.some.injEq, Nat.min_def]
      split_ifs <;> omega
    · simp
  · simp only [hlt, if_false]
    constructor
    · simp only [upd, eq_self_iff_true, if_true, Option.some.injEq, Nat.min_def]
      split_ifs <;> omega
    · simp [upd]

/-- Witness for C4: timestamps 5 then 3 with symbols "a" and "b" record
`min 5 3 = 3` and symbol "b"; a state holding 3 can only go down. -/
theorem c4_monotonic_reaction_minimum_witness :
    ((saveFirstReaction (saveFirstReaction initState 1 (some 5) "a") 1
        (some 3) "b").firstReactDate 1 = some (min 5 3) ∧
     (saveFirstReaction (saveFirstReaction initState 1 (some 5) "a") 1
        (some 3) "b").firstReactEmoji 1 = some (if 3 < 5 then "b" else "a")) ∧
    (∃ y, (observe (saveFirstReaction initState 1 (some 5) "a") c1ObsA).firstReactDate 1
        = some y ∧ y ≤ 5) :=
  ⟨c4_monotonic_reaction_minimum.1 initState 1 5 3 "a" "b"
     (by decide) rfl (by decide) (by decide),
   c4_monotonic_reaction_minimum.2.1 (saveFirstReaction initState 1 (some 5) "a")
     c1ObsA 1 5 rfl⟩

lemma foldl_andStep_none (fs : List Bool) :
    fs.foldl andStep none =
      if fs.isEmpty then none else some (fs.all id) := by
  have key : ∀ (t : List Bool) (b : Bool),
      t.foldl andStep (some b) = some (b && t.all id) := by
    intro t
    induction t with
    | nil => intro b; simp
    | cons g t ih =>
      intro b
      simp only [List.foldl_cons, andStep, Option.getD_some]
      rw [ih]
      simp [Bool.and_assoc]
  cases fs with
  | nil => rfl
  | cons f rest =>
    simp only [List.foldl_cons, andStep, Option.getD_none, Bool.true_and,
               List.isEmpty_cons, List.all_cons]
    rw [key]
    simp

/-- C5 (counterexample): In the structured-record (JSON) path, an
identity produced only by mention observations does NOT carry the
mention-only flag: a message consisting solely of the free-text mention
"@alice_bob" yields a one-entry roster whose flag is `false`, because
`JSONParser.parse` builds its throwaway mention users without passing
`is_mention_only=True` (json_parser.py lines 60-65), unlike the HTML path. -/
theorem c5_mention_only_counterexample :
    (JSONParse (.valid [{ text := "@alice_bob" }])).map
      (fun u => u.is_mention_only) = [false] := by
  decide

/-- C5 (amended): The mention-only lifecycle holds at the resolver and
in the markup (HTML) path, but not in the structured-record (JSON) path:
(1) HTML mention users are created with the flag set; (2) JSON mention
users are created with the flag clear, so JSON-path identities never have
it; (3) in any resolver run the final flag of a key is the conjunction of
the flags of all its observations — hence one flag-clear (authored or
reaction) observation makes it permanently false, and an HTML identity
seen only via mentions keeps it true. -/
theorem c5_mention_only_lifecycle_amended :
    (∀ un : String, (mkHtmlMentionUser un).is_mention_only = true) ∧
    (∀ un : String, (mkTextMentionUser un).is_mention_only = false) ∧
    (∀ (l : List Obs) (k : Int),
      ((runObs l).users k).map (fun u => u.is_mention_only) =
        if (l.filterMap (fun o => obsFlag o k)).isEmpty then none
        else some ((l.filterMap (fun o => obsFlag o k)).all id)) := by
  refine ⟨fun _ => rfl, fun _ => rfl, ?_⟩
  intro l k
  have h := foldl_observe_flag l initState k
  have h0 : (initState.users k).map (fun u => u.is_mention_only) = none := rfl
  rw [h0] at h
  unfold runObs
  rw [h, foldl_andStep_none]

/-- A syntactically-broken author record: the author is a bare string and
the secondary id "userabc" fails integer decoding, so the record yields no
observation at all. -/
def c6BadMsg : JMessage :=
  { from_present := true, from_field := .str "Bob", from_id := .str "userabc" }

/-- A well-formed string-author record. -/
def c6GoodMsg : JMessage :=
  { from_present := true, from_field := .str "Ann Lee", from_id := .str "user5",
    date := some 10, msg_id := some 2 }

/-- C6 (counterexample): No `FormatError` is signalled to the caller:
an unparseable container makes `JSONParser.parse` return the plain empty
list (the `json.JSONDecodeError` is caught and swallowed, json_parser.py
lines 85-87), indistinguishable from a syntactically valid export with no
messages. -/
theorem c6_format_error_counterexample :
    JSONParse JsonFile.invalid = [] ∧
    JSONParse JsonFile.invalid = JSONParse (.valid []) :=
  ⟨rfl, rfl⟩

/-- C6 (amended): A container that cannot be parsed is caught inside
`parse` and yields an empty roster with no error signalled to the caller;
an inner record that yields no observations (e.g. one whose author id
cannot be decoded) is skipped while every other record of the file is
still extracted. -/
theorem c6_extractor_failure_amended (pre post : List JMessage) (m : JMessage)
    (h : jsonMessageObs m = []) :
    JSONParse (.valid (pre ++ m :: post)) = JSONParse (.valid (pre ++ post)) ∧
    JSONParse JsonFile.invalid = [] := by
  refine ⟨?_, rfl⟩
  unfold JSONParse
  dsimp only
  rw [List.flatMap_append, List.flatMap_cons, h, List.flatMap_append]
  simp

/-- Witness for C6 (amended): dropping the undecodable-author record from
a two-record file leaves exactly the well-formed record's roster. -/
theorem c6_extractor_failure_amended_witness :
    JSONParse (.valid ([] ++ c6BadMsg :: [c6GoodMsg]))
      = JSONParse (.valid ([] ++ [c6GoodMsg])) ∧
    JSONParse JsonFile.invalid = [] :=
  c6_extractor_failure_amended [] [c6GoodMsg] c6BadMsg (by decide)

lemma dropUser_all_digits (ds : List Char) (h : ∀ c ∈ ds, pyIsDigit c = true) :
    dropUser ds = ds := by
  induction ds with
  | nil => rfl
  | cons c rest ih =>
    have hc : pyIsDigit c = true := h c (List.mem_cons_self _ _)
    have hcu : c ≠ 'u' := by
      rintro rfl
      exact absurd hc (by decide)
    have hrest : dropUser rest = rest :=
      ih (fun x hx => h x (List.mem_cons_of_mem _ hx))
    rw [dropUser.eq_def]
    split
    · rename_i heq
      injection heq with h1 _
      exact absurd h1 hcu
    · rename_i c' rest' heq
      injection heq with h1 h2
      subst h1; subst h2
      rw [hrest]
    · rename_i heq
      cases heq

lemma dropUser_user_digits (ds : List Char) (h : ∀ c ∈ ds, pyIsDigit c = true) :
    dropUser ('u' :: 's' :: 'e' :: 'r' :: ds) = ds := by
  rw [show dropUser ('u' :: 's' :: 'e' :: 'r' :: ds) = dropUser ds from rfl]
  exact dropUser_all_digits ds h

lemma pyIsDigit_not_space (c : Char) (h : pyIsDigit c = true) :
    pyIsSpace c = false := by
  have h1 : c ≠ ' ' := by rintro rfl; exact absurd h (by decide)
  have h2 : c ≠ '\t' := by rintro rfl; exact absurd h (by decide)
  have h3 : c ≠ '\n' := by rintro rfl; exact absurd h (by decide)
  have h4 : c ≠ '\r' := by rintro rfl; exact absurd h (by decide)
  have h5 : c ≠ Char.ofNat 11 := by rintro rfl; exact absurd h (by decide)
  have h6 : c ≠ Char.ofNat 12 := by rintro rfl; exact absurd h (by decide)
  simp [pyIsSpace, h1, h2, h3, h4, h5, h6]

lemma dropWhile_space_digits (l : List Char) (h : ∀ c ∈ l, pyIsDigit c = true) :
    l.dropWhile pyIsSpace = l := by
  cases l with
  | nil => rfl
  | cons c rest =>
    rw [List.dropWhile_cons,
        pyIsDigit_not_space c (h c (List.mem_cons_self _ _))]
    simp

lemma pyInt?_digits (ds : List Char) (hne : ds ≠ [])
    (h : ∀ c ∈ ds, pyIsDigit c = true) :
    pyInt? (String.mk ds) = some (Int.ofNat (digitsVal ds)) := by
  unfold pyInt?
  have hdata : (String.mk ds).data = ds := rfl
  rw [hdata]
  rw [dropWhile_space_digits ds h]
  rw [dropWhile_space_digits ds.reverse
      (fun c hc => h c (List.mem_reverse.mp hc))]
  rw [List.reverse_reverse]
  cases ds with
  | nil => exact absurd rfl hne
  | cons c rest =>
    have hc : pyIsDigit c = true := h c (List.mem_cons_self _ _)
    have hp : c ≠ '+' := by rintro rfl; exact absurd hc (by decide)
    have hm : c ≠ '-' := by rintro rfl; exact absurd hc (by decide)
    dsimp only
    rw [if_neg hp, if_neg hm]
    have hall : (c :: rest).all pyIsDigit = true := List.all_eq_true.mpr h
    simp [hall]

lemma listIsPre_cons {c : Char} {cs l : List Char}
    (h : listIsPre (c :: cs) l = true) :
    ∃ t, l = c :: t ∧ listIsPre cs t = true := by
  cases l with
  | nil => cases h
  | cons b t =>
    simp only [listIsPre, Bool.and_eq_true, beq_iff_eq] at h
    exact ⟨t, by rw [h.1], h.2⟩

/-- C7 (counterexample): The identifier "userabc" is neither of the
form `user<digits>` nor `channel<digits>`, so the claim says it should
yield a synthesized key — but the code takes the `user` prefix branch,
`int("abc")` raises, the exception handler returns `None`, and the record
is dropped instead. -/
theorem c7_author_id_decoding_counterexample :
    extractUserFromStr "Bob" (.str "userabc") = none := by
  decide

/-- C7 (amended): Author identifier decoding for a bare display-name
author: `user<digits>` yields the numeric id `<digits>`; any identifier
starting with "channel" (digits or not) drops the record; an identifier
starting with neither "user" nor "channel" yields the synthesized
`pyHash` key; a non-string identifier hashes the display name; and in all
produced users the display name is split on first whitespace into
given/family parts.  An identifier starting with "user" whose remainder
(after removing every "user" occurrence) is not a valid integer drops the
record, per the counterexample. -/
theorem c7_author_id_decoding_amended :
    (∀ (nm : String) (ds : List Char), ds ≠ [] →
      (∀ c ∈ ds, pyIsDigit c = true) →
      extractUserFromStr nm (.str (String.mk ('u' :: 's' :: 'e' :: 'r' :: ds))) =
        some (strAuthorUser nm (Int.ofNat (digitsVal ds)))) ∧
    (∀ (nm s : String), pyStartsWith s "channel" = true →
      extractUserFromStr nm (.str s) = none) ∧
    (∀ (nm s : String), pyStartsWith s "user" = false →
      pyStartsWith s "channel" = false →
      extractUserFromStr nm (.str s) = some (strAuthorUser nm (pyHash s))) ∧
    (∀ nm : String,
      extractUserFromStr nm .absent = some (strAuthorUser nm (pyHash nm))) ∧
    (∀ (nm : String) (uid : Int),
      (strAuthorUser nm uid).user_id = uid ∧
      (strAuthorUser nm uid).first_name = some ((pySplit1 nm).headD nm) ∧
      (strAuthorUser nm uid).last_name = (pySplit1 nm).get? 1) := by
  refine ⟨?_, ?_, ?_, fun _ => rfl, ?_⟩
  · intro nm ds hne h
    have h1 : pyStartsWith (String.mk ('u' :: 's' :: 'e' :: 'r' :: ds)) "user" = true := rfl
    simp only [extractUserFromStr, h1, if_true]
    rw [dropUser_user_digits ds h, pyInt?_digits ds hne h]
  · intro nm s hch
    have hdu : pyStartsWith s "user" = false := by
      have hch' : listIsPre ('c' :: "hannel".data) s.data = true := hch
      rcases listIsPre_cons hch' with ⟨t, ht, _⟩
      show listIsPre "user".data s.data = false
      rw [ht]
      rfl
    simp only [extractUserFromStr, hdu, hch]
    simp
  · intro nm s hu hc
    simp only [extractUserFromStr, hu, hc]
    simp
  · intro nm uid
    refine ⟨rfl, rfl, ?_⟩
    unfold strAuthorUser
    rcases pySplit1 nm with _ | ⟨a, _ | ⟨b, t⟩⟩ <;> rfl

/-- Witness for C7 (amended): "user123" decodes to id 123 with the name
"Ann Lee" split into given "Ann" and family "Lee"; "weirdid" synthesizes a
hash key. -/
theorem c7_author_id_decoding_amended_witness :
    extractUserFromStr "Ann Lee"
        (.str (String.mk ('u' :: 's' :: 'e' :: 'r' :: ['1', '2', '3']))) =
      some (strAuthorUser "Ann Lee" (Int.ofNat (digitsVal ['1','2','3']))) ∧
    extractUserFromStr "Ann Lee" (.str "weirdid") =
      some (strAuthorUser "Ann Lee" (pyHash "weirdid")) :=
  ⟨c7_author_id_decoding_amended.1 "Ann Lee" ['1','2','3']
     (by decide) (by decide),
   c7_author_id_decoding_amended.2.2.1 "Ann Lee" "weirdid"
     (by decide) (by decide)⟩

lemma dedupKeepFirst_nodup (l : List String) :
    ∀ acc : List String, acc.Nodup → (dedupKeepFirst acc l).Nodup := by
  induction l with
  | nil => intro acc h; exact h
  | cons u t ih =>
    intro acc h
    simp only [dedupKeepFirst]
    by_cases hu : u ∈ acc
    · rw [if_pos hu]; exact ih acc h
    · rw [if_neg hu]
      refine ih _ ?_
      simp [List.nodup_append, h, hu]

lemma dedupKeepFirst_split (l : List String) :
    ∀ acc : List String, ∃ t, dedupKeepFirst acc l = acc ++ t ∧ t.Sublist l := by
  induction l with
  | nil => intro acc; exact ⟨[], by simp [dedupKeepFirst], List.nil_sublist _⟩
  | cons u t ih =>
    intro acc
    simp only [dedupKeepFirst]
    by_cases hu : u ∈ acc
    · rw [if_pos hu]
      rcases ih acc with ⟨t', h1, h2⟩
      exact ⟨t', h1, h2.cons u⟩
    · rw [if_neg hu]
      rcases ih (acc ++ [u]) with ⟨t', h1, h2⟩
      refine ⟨u :: t', ?_, h2.cons₂ u⟩
      rw [h1, List.append_assoc]
      rfl

lemma dedupKeepFirst_mem (l : List String) :
    ∀ (acc : List String) (x : String),
      x ∈ dedupKeepFirst acc l ↔ x ∈ acc ∨ x ∈ l := by
  induction l with
  | nil => intro acc x; simp [dedupKeepFirst]
  | cons u t ih =>
    intro acc x
    simp only [dedupKeepFirst]
    by_cases hu : u ∈ acc
    · rw [if_pos hu, ih]
      constructor
      · rintro (h | h)
        exacts [Or.inl h, Or.inr (List.mem_cons_of_mem _ h)]
      · rintro (h | h)
        · exact Or.inl h
        · rcases List.mem_cons.mp h with rfl | h2
          exacts [Or.inl hu, Or.inr h2]
    · rw [if_neg hu, ih]
      simp only [List.mem_append, List.mem_singleton, List.mem_cons]
      tauto

lemma scanMentionsAux_shape (fuel : Nat) :
    ∀ (l : List Char) (u : String), u ∈ scanMentionsAux fuel l →
      5 ≤ u.length ∧ u.length ≤ 32 ∧ ∀ c ∈ u.data, isWordChar c = true := by
  induction fuel with
  | zero => intro l u h; cases h
  | succ fuel ih =>
    intro l u h
    cases l with
    | nil => cases h
    | cons c rest =>
      simp only [scanMentionsAux] at h
      by_cases hc : c = '@'
      · rw [if_pos hc] at h
        by_cases hlen : 5 ≤ ((rest.takeWhile isWordChar).take 32).length
        · rw [if_pos hlen] at h
          rcases List.mem_cons.mp h with rfl | h2
          · refine ⟨hlen, ?_, ?_⟩
            · show ((rest.takeWhile isWordChar).take 32).length ≤ 32
              rw [List.length_take]
              exact min_le_left _ _
            · intro ch hch
              exact List.mem_takeWhile_imp (List.mem_of_mem_take hch)
          · exact ih _ u h2
        · rw [if_neg hlen] at h
          exact ih _ u h
      · rw [if_neg hc] at h
        exact ih _ u h

/-- C8 (confirmed): The mention scanner: empty text yields the empty
sequence; otherwise the result is exactly the de-duplicated (`Nodup`),
order-preserving (`Sublist`), membership-complete restriction of the raw
left-to-right match sequence of the pattern `@` followed by 5 to 32
word characters — and every returned handle indeed has length 5-32 and
only ASCII letters, digits and underscore. -/
theorem c8_mention_scanner_contract :
    extractMentionedUsers "" = [] ∧
    (∀ text : String,
      (extractMentionedUsers text).Nodup ∧
      (extractMentionedUsers text).Sublist (scanMentions text.data) ∧
      (∀ u, u ∈ extractMentionedUsers text ↔ u ∈ scanMentions text.data) ∧
      (∀ u ∈ extractMentionedUsers text,
        5 ≤ u.length ∧ u.length ≤ 32 ∧ ∀ c ∈ u.data, isWordChar c = true)) := by
  refine ⟨rfl, ?_⟩
  intro text
  have hshape : ∀ u ∈ scanMentions text.data,
      5 ≤ u.length ∧ u.length ≤ 32 ∧ ∀ c ∈ u.data, isWordChar c = true :=
    fun u hu => scanMentionsAux_shape _ _ u hu
  by_cases he : text.isEmpty
  · have ht : text = "" := (String.isEmpty_iff text).mp he
    subst ht
    refine ⟨List.nodup_nil, List.nil_sublist _, ?_, ?_⟩
    · intro u
      constructor
      · intro h; cases h
      · intro h; cases h
    · intro u hu; cases hu
  · unfold extractMentionedUsers
    rw [if_neg (by simp [he])]
    rcases dedupKeepFirst_split (scanMentions text.data) [] with ⟨t, h1, h2⟩
    refine ⟨dedupKeepFirst_nodup _ [] List.nodup_nil, ?_, ?_, ?_⟩
    · rw [h1]; exact h2
    · intro u
      rw [dedupKeepFirst_mem]
      simp
    · intro u hu
      exact hshape u (((dedupKeepFirst_mem _ [] u).mp hu).resolve_left
        (by intro h; cases h))

/-- Witness for C8: scanning "hi @hello_world and @hi" finds exactly the
one long-enough handle, whose shape obeys the pattern bounds. -/
theorem c8_mention_scanner_contract_witness :
    5 ≤ ("hello_world" : String).length ∧
    ("hello_world" : String).length ≤ 32 ∧
    ∀ c ∈ ("hello_world" : String).data, isWordChar c = true :=
  (c8_mention_scanner_contract.2 "hi @hello_world and @hi").2.2.2
    "hello_world" (by decide)
